import Mathlib

/-
Verification development for the g3-discord-bot repository.

Shallow embedding of the two algorithmic modules:
  * rating_system.py : Glicko-style rating update (modelled over the reals;
    Python floats are modelled as exact real arithmetic; the integer `round`
    of Python is modelled by Mathlib round, which agrees with it away from
    exact half-integer ties).
  * matchmaking.py : team balancing, the captains-draft state machine,
    the per-channel match registry, match reporting and the CSV-backed
    player/match stores (modelled over the rationals; the two CSV files are
    modelled as in-memory lists of rows; Python dicts keyed by channel id
    are modelled as association lists).
-/

open Real

-- ============================================================
-- rating_system.py
-- ============================================================

/-- statistics.mean, as used on nonempty team lists (sum divided by length). -/
noncomputable def mean (l : List ℝ) : ℝ := l.sum / l.length

/-- g helps calculate how impervious a rating is to change
(rating_system.py, function g). -/
noncomputable def g (stdev : ℝ) : ℝ :=
  1 / Real.sqrt (1 + 3 * stdev ^ 2 / Real.pi ^ 2)

/-- E calculates the expected outcome of a match given two ratings and the
stdev of the opponent (rating_system.py, function E). -/
noncomputable def E (rating1 rating2 stdev2 : ℝ) : ℝ :=
  1 / (1 + Real.exp (-g stdev2 * (rating1 - rating2)))

/-- rating_change from rating_system.py.  Returns the (rating delta, stdev
delta) for player 1 against player 2 at the given score.  Python round is
modelled by round (they agree except at half-integer ties). -/
noncomputable def rating_change (rating1 stdev1 rating2 stdev2 score : ℝ) :
    ℝ × ℝ :=
  let r1_og := rating1
  let s1_og := stdev1
  let factor : ℝ := 173.7178
  let rating1 := (rating1 - 1500) / factor
  let rating2 := (rating2 - 1500) / factor
  let stdev1 := stdev1 / factor
  let stdev2 := stdev2 / factor
  let v_uncertainty :=
    (g stdev2 ^ 2 * E rating1 rating2 stdev2 * (1 - E rating1 rating2 stdev2))⁻¹
  let stdev1_star := Real.sqrt (stdev1 ^ 2 + 0.06 ^ 2)
  let stdev1_prime := 1 / Real.sqrt (1 / stdev1_star ^ 2 + 1 / v_uncertainty)
  let rating1_prime :=
    rating1 + stdev1_prime ^ 2 * g stdev2 * (score - E rating1 rating2 stdev2)
  let rating1_delta := (round (rating1_prime * factor + 1500) : ℝ) - r1_og
  let stdev1_delta := (round (stdev1_prime * factor) : ℝ) - s1_og
  (rating1_delta, stdev1_delta)

/-- new_team_ratings from rating_system.py.  Each team is a list of
(rating, stdev) pairs; score 1 means team 1 won, 0 means team 2 won.
Returns (new_team1, new_team2, delta_team1, delta_team2); the for-loops
that append one entry per player are modelled as List.map. -/
noncomputable def new_team_ratings (team1 team2 : List (ℝ × ℝ)) (score : ℝ) :
    List (ℝ × ℝ) × List (ℝ × ℝ) × List ℝ × List ℝ :=
  let avg_rating_t1 := mean (team1.map Prod.fst)
  let avg_stdev_t1 := mean (team1.map Prod.snd)
  let avg_rating_t2 := mean (team2.map Prod.fst)
  let avg_stdev_t2 := mean (team2.map Prod.snd)
  let new_team1 := team1.map (fun player =>
    let d := rating_change avg_rating_t1 player.2 avg_rating_t2 avg_stdev_t2 score
    (player.1 + d.1, player.2 + d.2))
  let delta_team1 := team1.map (fun player =>
    (rating_change avg_rating_t1 player.2 avg_rating_t2 avg_stdev_t2 score).1)
  let new_team2 := team2.map (fun player =>
    let d := rating_change avg_rating_t2 player.2 avg_rating_t1 avg_stdev_t1 (1 - score)
    (player.1 + d.1, player.2 + d.2))
  let delta_team2 := team2.map (fun player =>
    (rating_change avg_rating_t2 player.2 avg_rating_t1 avg_stdev_t1 (1 - score)).1)
  (new_team1, new_team2, delta_team1, delta_team2)

/-- The internal one-plus-spread quantity that g is the inverse square root
of, at an externally scaled deviation d. -/
noncomputable def XOf (d : ℝ) : ℝ := 1 + 3 * (d / 173.7178) ^ 2 / Real.pi ^ 2

/-- Square of the post-match internal deviation at equal ratings and equal
deviations d (so that the expected score is 1/2). -/
noncomputable def spSq (d : ℝ) : ℝ :=
  1 / (1 / ((d / 173.7178) ^ 2 + 0.06 ^ 2) + 1 / (4 * XOf d))

/-- The rounded-away increment of the external rating produced by
rating_change: new internal rating minus old, times the scale factor. -/
noncomputable def wGen (r1 d1 r2 d2 sc : ℝ) : ℝ :=
  (1 / Real.sqrt (1 / ((d1 / 173.7178) ^ 2 + 0.06 ^ 2) +
      g (d2 / 173.7178) ^ 2 *
        E ((r1 - 1500) / 173.7178) ((r2 - 1500) / 173.7178) (d2 / 173.7178) *
        (1 - E ((r1 - 1500) / 173.7178) ((r2 - 1500) / 173.7178) (d2 / 173.7178)))) ^ 2 *
    g (d2 / 173.7178) *
    (sc - E ((r1 - 1500) / 173.7178) ((r2 - 1500) / 173.7178) (d2 / 173.7178)) * 173.7178

-- ============================================================
-- matchmaking.py : data model and operations
-- ============================================================

/-- A row of players.csv, and also the player dict handed around by the cog:
discord_id, display_name, rating, deviation.  Python float values are
modelled as exact rationals. -/
structure PlayerRow where
  discord_id : ℤ
  display_name : String
  rating : ℚ
  deviation : ℚ
deriving DecidableEq

/-- A row of matches.csv: the team id columns hold comma-joined id strings,
exactly as report_match writes them. -/
structure MatchRecord where
  match_id : ℤ
  winner : String
  team1_ids : String
  team2_ids : String
  timestamp : String
deriving DecidableEq

/-- An entry of the active_matches dict: match_id, team1, team2. -/
structure Session where
  match_id : ℤ
  team1 : List PlayerRow
  team2 : List PlayerRow
deriving DecidableEq

/-- The mutable state of the Matchmaking cog together with the two CSV
files.  Python dicts keyed by channel id are modelled as association
lists. -/
structure BotState where
  players : List PlayerRow
  matches_df : List MatchRecord
  active_matches : List (ℤ × Session)
  pending_matches : List (ℤ × (List PlayerRow × List PlayerRow))
deriving DecidableEq

-- Association-list counterparts of the Python dict operations used.

def dictContains {β : Type} (d : List (ℤ × β)) (k : ℤ) : Bool :=
  d.any (fun e => e.1 == k)

def dictGet? {β : Type} (d : List (ℤ × β)) (k : ℤ) : Option β :=
  (d.find? (fun e => e.1 == k)).map (fun e => e.2)

def dictSet {β : Type} (d : List (ℤ × β)) (k : ℤ) (v : β) : List (ℤ × β) :=
  if d.any (fun e => e.1 == k) then d.map (fun e => if e.1 == k then (k, v) else e)
  else d ++ [(k, v)]

def dictPop {β : Type} (d : List (ℤ × β)) (k : ℤ) : List (ℤ × β) :=
  d.filter (fun e => e.1 != k)

/-- save_player_data: the rating and deviation columns are rounded to the
nearest integer before the file is written (round().astype(int); pandas
rounds half to even, which only differs from round at exact halves). -/
def save_player_data (df : List PlayerRow) : List PlayerRow :=
  df.map (fun r =>
    { r with rating := (round r.rating : ℚ), deviation := (round r.deviation : ℚ) })

/-- get_or_create_player: returns the row handed back to the caller and the
players file after the call.  On a miss a default 1500/350 row is appended
and the file saved; on a display-name change the name is refreshed and the
file saved (the row returned is the one fetched before the update, as in
the source); otherwise the file is untouched. -/
def get_or_create_player (file : List PlayerRow) (player_id : ℤ) (player_name : String) :
    PlayerRow × List PlayerRow :=
  match file.find? (fun r => r.discord_id == player_id) with
  | none =>
      let new_player : PlayerRow :=
        { discord_id := player_id, display_name := player_name,
          rating := 1500, deviation := 350 }
      (new_player, save_player_data (file ++ [new_player]))
  | some row =>
      if row.display_name ≠ player_name then
        (row, save_player_data (file.map (fun r =>
          if r.discord_id == player_id then { r with display_name := player_name } else r)))
      else (row, file)

/-- itertools.combinations: all length-n subsequences of the input, in
python enumeration order. -/
def combinations {α : Type} : ℕ → List α → List (List α)
  | 0, _ => [[]]
  | _ + 1, [] => []
  | n + 1, x :: xs => (combinations n xs).map (fun c => x :: c) ++ combinations (n + 1) xs

/-- Python abs on a rational. -/
def pyAbs (q : ℚ) : ℚ := if q < 0 then -q else q

/-- The candidate difference computed inside the balance_teams loop: both
sums are divided by the literal 5. -/
def teamDiff (team1_list team2_list : List PlayerRow) : ℚ :=
  pyAbs ((team1_list.map (fun p => p.rating)).sum / 5 -
    (team2_list.map (fun p => p.rating)).sum / 5)

/-- The fold of balance_teams over the candidate splits: min_diff starts as
infinity (modelled by none) and best_teams as ([], []); a candidate is kept
only when its difference is strictly below the minimum seen. -/
def balanceLoop :
    List (List PlayerRow × List PlayerRow) → Option ℚ → List PlayerRow × List PlayerRow →
      List PlayerRow × List PlayerRow
  | [], _, best_teams => best_teams
  | c :: rest, min_diff, best_teams =>
    let d := teamDiff c.1 c.2
    if (match min_diff with | none => true | some m => decide (d < m)) then
      balanceLoop rest (some d) c
    else balanceLoop rest min_diff best_teams

/-- balance_teams from matchmaking.py: enumerate the 5-subsets, pair each
with its complement (membership tested by value, `p not in team1_list`) and
keep the first split of minimal average-rating difference. -/
def balance_teams (players : List PlayerRow) : List PlayerRow × List PlayerRow :=
  balanceLoop ((combinations 5 players).map (fun team1_list =>
    (team1_list, players.filter (fun p => decide (p ∉ team1_list))))) none ([], [])

-- CaptainsPickView: the turn-based draft state machine.

/-- The mutable fields of CaptainsPickView. -/
structure DraftState where
  author_id : ℤ
  captains : List PlayerRow
  available_players : List PlayerRow
  team1 : List PlayerRow
  team2 : List PlayerRow
  current_picker_index : ℕ
  picks_to_make : ℕ
  pick_turn : ℕ
deriving DecidableEq

def defaultPlayer : PlayerRow :=
  { discord_id := 0, display_name := "", rating := 0, deviation := 0 }

/-- captains[current_picker_index]; the index is always 0 or 1 for states
built by the cog. -/
def currentPicker (st : DraftState) : PlayerRow :=
  st.captains.getD st.current_picker_index defaultPlayer

/-- CaptainsPickView.interaction_check: the author may act for dummy
captains with negative ids; otherwise only the current captain may act. -/
def interaction_check (st : DraftState) (actor_id : ℤ) : Bool :=
  let picker_id := (currentPicker st).discord_id
  if picker_id < 0 && actor_id == st.author_id then true
  else actor_id == picker_id

/-- Outcome of one pick submission.  rejectedAuth and noSelection carry the
state left behind, which the code does not modify on those paths;
pickFault models the StopIteration raised by next() on an id that is not
in the pool. -/
inductive PickResult where
  | rejectedAuth (st : DraftState)
  | noSelection (st : DraftState)
  | pickFault (st : DraftState)
  | continued (st : DraftState)
  | completed (team1 team2 : List PlayerRow)
deriving DecidableEq

/-- The move loop of on_submit_pick: for each picked id, find the first
pool player with that id (next(...)), append it to the picking team and
remove it (list.remove removes the first equal element, which is that same
player) from the pool. -/
def movePlayers :
    List PlayerRow → List PlayerRow → List ℤ → Option (List PlayerRow × List PlayerRow)
  | available, team, [] => some (available, team)
  | available, team, pid :: rest =>
    match available.find? (fun p => p.discord_id == pid) with
    | none => none
    | some player_to_move =>
        movePlayers (available.erase player_to_move) (team ++ [player_to_move]) rest

/-- CaptainsPickView.on_submit_pick (after interaction_check has passed). -/
def on_submit_pick (st : DraftState) (picked_ids : List ℤ) : PickResult :=
  if picked_ids.isEmpty then .noSelection st
  else
    let current_team := if st.current_picker_index == 0 then st.team1 else st.team2
    match movePlayers st.available_players current_team picked_ids with
    | none => .pickFault st
    | some (available1, team_after) =>
        let st1 :=
          if st.current_picker_index == 0 then
            { st with team1 := team_after, available_players := available1 }
          else
            { st with team2 := team_after, available_players := available1 }
        if st1.pick_turn == 4 && available1.length == 1 then
          let last_player := available1.headD defaultPlayer
          .completed (st1.team1 ++ [last_player]) st1.team2
        else
          let turn1 := st1.pick_turn + 1
          .continued { st1 with
            pick_turn := turn1,
            current_picker_index := 1 - st1.current_picker_index,
            picks_to_make := if turn1 == 5 then 1 else 2 }

/-- A pick submission as the view sees it: interaction_check gates
on_submit_pick; a rejected submission changes nothing. -/
def submitPick (st : DraftState) (actor_id : ℤ) (picked_ids : List ℤ) : PickResult :=
  if interaction_check st actor_id then on_submit_pick st picked_ids
  else .rejectedAuth st

/-- The CaptainsPickView constructor state as captains_pick builds it:
captain seeds in the teams, turn 1, captain 0 to pick 1 player. -/
def initDraft (author_id : ℤ) (captain1_data captain2_data : PlayerRow)
    (available_players : List PlayerRow) : DraftState :=
  { author_id := author_id,
    captains := [captain1_data, captain2_data],
    available_players := available_players,
    team1 := [captain1_data],
    team2 := [captain2_data],
    current_picker_index := 0,
    picks_to_make := 1,
    pick_turn := 1 }

-- Cog commands.

/-- The comma-joined id string written into a team id column. -/
def joinIds (team : List PlayerRow) : String :=
  String.intercalate "," (team.map (fun p => toString p.discord_id))

/-- get_player_list_from_args: rejects unless the member ids form a set of
exactly 10; otherwise get_or_create_player runs for each member in order,
threading the players file.  Returns (players_data, file after). -/
def get_player_list_from_args (file : List PlayerRow) (members : List (ℤ × String)) :
    Option (List PlayerRow × List PlayerRow) :=
  if (members.map Prod.fst).dedup.length ≠ 10 then none
  else
    some (members.foldl (fun acc m =>
      let r := get_or_create_player acc.2 m.1 m.2
      (acc.1 ++ [r.1], r.2)) (([] : List PlayerRow), file))

inductive RecommendResult where
  | conflictActive
  | invalidPlayers
  | proposed (team1 team2 : List PlayerRow)
deriving DecidableEq

/-- The recommend_teams command: rejected when the channel has an entry in
active_matches; otherwise balanced teams are computed and stored in
pending_matches (replacing any pending entry for the channel). -/
def recommend_teams (st : BotState) (channel_id : ℤ) (members : List (ℤ × String)) :
    BotState × RecommendResult :=
  if dictContains st.active_matches channel_id then (st, .conflictActive)
  else
    match get_player_list_from_args st.players members with
    | none => (st, .invalidPlayers)
    | some (players_data, file1) =>
        let t := balance_teams players_data
        ({ st with players := file1,
                   pending_matches := dictSet st.pending_matches channel_id (t.1, t.2) },
         .proposed t.1 t.2)

inductive CaptainsResult where
  | conflictActive
  | invalidPlayers
  | captainNotInPlayers
  | sameCaptain
  | draftStarted (view : DraftState)
deriving DecidableEq

/-- The captains_pick command.  The random.sample choice of captains when
none are supplied is an injected parameter sample2.  It registers nothing
in the session dicts; the draft lives in the returned view state. -/
def captains_pick (sample2 : List PlayerRow → PlayerRow × PlayerRow)
    (st : BotState) (channel_id author_id : ℤ) (members : List (ℤ × String))
    (captain1 captain2 : Option (ℤ × String)) : BotState × CaptainsResult :=
  if dictContains st.active_matches channel_id then (st, .conflictActive)
  else
    match get_player_list_from_args st.players members with
    | none => (st, .invalidPlayers)
    | some (players_data, file1) =>
        let st1 := { st with players := file1 }
        match captain1, captain2 with
        | some c1, some c2 =>
            if !(players_data.any (fun p => p.discord_id == c1.1)) ||
               !(players_data.any (fun p => p.discord_id == c2.1)) then
              (st1, .captainNotInPlayers)
            else if c1.1 == c2.1 then (st1, .sameCaptain)
            else
              match players_data.find? (fun p => p.discord_id == c1.1),
                    players_data.find? (fun p => p.discord_id == c2.1) with
              | some c1_data, some c2_data =>
                  (st1, .draftStarted (initDraft author_id c1_data c2_data
                    (players_data.filter (fun p => decide (p ∉ [c1_data, c2_data])))))
              | _, _ => (st1, .captainNotInPlayers)
        | _, _ =>
            let c := sample2 players_data
            (st1, .draftStarted (initDraft author_id c.1 c.2
              (players_data.filter (fun p => decide (p ∉ [c.1, c.2])))))

inductive ReportResult where
  | noActiveMatch
  | abandonedOk (match_id : ℤ)
  | reportedOk (match_id : ℤ)
deriving DecidableEq

/-- winner.name for the two team choices of report_match. -/
def winnerDisplayName (winner_value : String) : String :=
  if winner_value == "blue" then "🔵 Blue Team" else "🔴 Red Team"

/-- The report_match command.  The rating engine is the injected engine
parameter (the source calls new_team_ratings); now is the timestamp
written into the match record.  On abandoned: one record is appended, no
rating is touched, the session is removed.  Otherwise each team member row
is updated from the engine output (the loop pairs team members with engine
entries by position) and the file saved. -/
def report_match
    (engine : List (ℚ × ℚ) → List (ℚ × ℚ) → ℕ →
      List (ℚ × ℚ) × List (ℚ × ℚ) × List ℚ × List ℚ)
    (st : BotState) (channel_id : ℤ) (winner_value : String) (now : String) :
    BotState × ReportResult :=
  match dictGet? st.active_matches channel_id with
  | none => (st, .noActiveMatch)
  | some match_info =>
      let st1 := { st with active_matches := dictPop st.active_matches channel_id }
      if winner_value == "abandoned" then
        let new_match : MatchRecord :=
          { match_id := match_info.match_id, winner := "Abandoned",
            team1_ids := joinIds match_info.team1, team2_ids := joinIds match_info.team2,
            timestamp := now }
        ({ st1 with matches_df := st1.matches_df ++ [new_match] },
         .abandonedOk match_info.match_id)
      else
        let team1 := match_info.team1
        let team2 := match_info.team2
        let score : ℕ := if winner_value == "blue" then 1 else 0
        let result := engine (team1.map (fun p => (p.rating, p.deviation)))
          (team2.map (fun p => (p.rating, p.deviation))) score
        let file1 := (team1.zip result.1).foldl (fun df pr =>
          df.map (fun r => if r.discord_id == pr.1.discord_id then
            { r with rating := pr.2.1, deviation := pr.2.2 } else r)) st1.players
        let file2 := (team2.zip result.2.1).foldl (fun df pr =>
          df.map (fun r => if r.discord_id == pr.1.discord_id then
            { r with rating := pr.2.1, deviation := pr.2.2 } else r)) file1
        let new_match : MatchRecord :=
          { match_id := match_info.match_id, winner := winnerDisplayName winner_value,
            team1_ids := joinIds team1, team2_ids := joinIds team2, timestamp := now }
        ({ st1 with players := save_player_data file2,
                    matches_df := st1.matches_df ++ [new_match] },
         .reportedOk match_info.match_id)

/-- pandas str.contains with a plain digit pattern: substring containment. -/
def strContains (haystack needle : String) : Bool :=
  decide (needle.toList <:+: haystack.toList)

/-- The match_history query: rows whose team id columns contain the target
id as a substring, sorted most recent first by timestamp (sort_values
descending; the sort is modelled by insertion sort on the same order). -/
def match_history (matches_df : List MatchRecord) (target_id : ℤ) : List MatchRecord :=
  (matches_df.filter (fun m =>
    strContains m.team1_ids (toString target_id) ||
      strContains m.team2_ids (toString target_id))).insertionSort
    (fun a b => b.timestamp ≤ a.timestamp)

/-- The edit_rating command restricted to its effect on the players file:
create the player if missing, set the rating column, save. -/
def edit_rating (file : List PlayerRow) (player_id : ℤ) (player_name : String)
    (rating : ℤ) : List PlayerRow :=
  let file1 := if file.any (fun r => r.discord_id == player_id) then file
    else (get_or_create_player file player_id player_name).2
  save_player_data (file1.map (fun r =>
    if r.discord_id == player_id then { r with rating := (rating : ℚ) } else r))

/-- A rational that is an integer (what an integer CSV cell holds). -/
def isIntegral (q : ℚ) : Prop := q.den = 1

instance (q : ℚ) : Decidable (isIntegral q) :=
  inferInstanceAs (Decidable (q.den = 1))

/-- Every rating and deviation stored in the players file is an integer. -/
def allIntegral (file : List PlayerRow) : Prop :=
  ∀ r ∈ file, isIntegral r.rating ∧ isIntegral r.deviation

instance (file : List PlayerRow) : Decidable (allIntegral file) :=
  inferInstanceAs (Decidable (∀ r ∈ file, isIntegral r.rating ∧ isIntegral r.deviation))

-- A first-strict-minimum fold, the shape of the balance_teams loop.

def foldMin {α : Type} (f : α → ℚ) (b : α) (l : List α) : α :=
  l.foldl (fun acc x => if f x < f acc then x else acc) b

/-- Candidate measure used by the loop: average-rating gap of the split. -/
def candDiff (c : List PlayerRow × List PlayerRow) : ℚ := teamDiff c.1 c.2

/-- The conclusion of claim C1 for an input list: the returned teams are a
5/5 partition of the input, the gap is minimal over every 5/5 split, and
the returned split is the first minimizer in enumeration order (which also
makes the function deterministic on identical input). -/
def balanceSpec (players : List PlayerRow) : Prop :=
  (balance_teams players).1.length = 5 ∧
  (balance_teams players).2.length = 5 ∧
  (∀ p ∈ (balance_teams players).1, p ∉ (balance_teams players).2) ∧
  ((balance_teams players).1 ++ (balance_teams players).2).Perm players ∧
  (∀ c, c.Sublist players → c.length = 5 →
    teamDiff (balance_teams players).1 (balance_teams players).2 ≤
      teamDiff c (players.filter (fun p => decide (p ∉ c)))) ∧
  ∃ m : ℚ,
    (∀ c ∈ combinations 5 players,
      m ≤ teamDiff c (players.filter (fun p => decide (p ∉ c)))) ∧
    (combinations 5 players).find?
      (fun c => decide (teamDiff c (players.filter (fun p => decide (p ∉ c))) = m)) =
      some (balance_teams players).1

/-- The conclusion of claim C5: the schedule-following four-submission
draft runs to completion, the single leftover player landing in team 1,
with five players on each side and no fifth submission. -/
def draftScenario (author : ℤ) (c1 c2 : PlayerRow) (pool : List PlayerRow)
    (picks1 picks2 picks3 picks4 : List ℤ) : Prop :=
  ∃ st1 st2 st3 t1f t2f last,
    submitPick (initDraft author c1 c2 pool) c1.discord_id picks1 = .continued st1 ∧
    submitPick st1 c2.discord_id picks2 = .continued st2 ∧
    submitPick st2 c1.discord_id picks3 = .continued st3 ∧
    st3.pick_turn = 4 ∧
    st3.available_players.length = 3 ∧
    movePlayers st3.available_players st3.team2 picks4 = some ([last], t2f) ∧
    submitPick st3 c2.discord_id picks4 = .completed t1f t2f ∧
    t1f = st3.team1 ++ [last] ∧
    last ∈ pool ∧
    c1 ∈ t1f ∧
    t1f.length = 5 ∧ t2f.length = 5

-- ============================================================
-- Spec-side definitions for the refinement claim about new_team_ratings
-- ============================================================

/-- Claim C3 as stated: each player of team1 is updated exactly as if they
personally (their own rating and own deviation) played one game against a
single opponent whose rating and deviation equal the averages of team2,
and symmetrically for team2 with score 1 - score. -/
noncomputable def personal_update (team1 team2 : List (ℝ × ℝ)) (score : ℝ) :
    List (ℝ × ℝ) × List (ℝ × ℝ) × List ℝ × List ℝ :=
  let avg_rating_t1 := mean (team1.map Prod.fst)
  let avg_stdev_t1 := mean (team1.map Prod.snd)
  let avg_rating_t2 := mean (team2.map Prod.fst)
  let avg_stdev_t2 := mean (team2.map Prod.snd)
  (team1.map (fun player =>
      let d := rating_change player.1 player.2 avg_rating_t2 avg_stdev_t2 score
      (player.1 + d.1, player.2 + d.2)),
   team2.map (fun player =>
      let d := rating_change player.1 player.2 avg_rating_t1 avg_stdev_t1 (1 - score)
      (player.1 + d.1, player.2 + d.2)),
   team1.map (fun player =>
      (rating_change player.1 player.2 avg_rating_t2 avg_stdev_t2 score).1),
   team2.map (fun player =>
      (rating_change player.1 player.2 avg_rating_t1 avg_stdev_t1 (1 - score)).1))

/-- The amended reading: each player of team1 is updated as if a player
carrying the average rating of team1 but the member's own deviation played
one game against an opponent whose rating and deviation equal the averages
of team2, the resulting deltas being applied to the member's own rating
and deviation; symmetrically for team2 with score 1 - score. -/
noncomputable def team_average_update (team1 team2 : List (ℝ × ℝ)) (score : ℝ) :
    List (ℝ × ℝ) × List (ℝ × ℝ) × List ℝ × List ℝ :=
  let avg_rating_t1 := mean (team1.map Prod.fst)
  let avg_stdev_t1 := mean (team1.map Prod.snd)
  let avg_rating_t2 := mean (team2.map Prod.fst)
  let avg_stdev_t2 := mean (team2.map Prod.snd)
  (team1.map (fun player =>
      let d := rating_change avg_rating_t1 player.2 avg_rating_t2 avg_stdev_t2 score
      (player.1 + d.1, player.2 + d.2)),
   team2.map (fun player =>
      let d := rating_change avg_rating_t2 player.2 avg_rating_t1 avg_stdev_t1 (1 - score)
      (player.1 + d.1, player.2 + d.2)),
   team1.map (fun player =>
      (rating_change avg_rating_t1 player.2 avg_rating_t2 avg_stdev_t2 score).1),
   team2.map (fun player =>
      (rating_change avg_rating_t2 player.2 avg_rating_t1 avg_stdev_t1 (1 - score)).1))

def rosterC1 : List PlayerRow :=
  [⟨1, "a", 3, 350⟩, ⟨2, "b", 1, 350⟩, ⟨3, "c", 4, 350⟩, ⟨4, "d", 1, 350⟩,
   ⟨5, "e", 5, 350⟩, ⟨6, "f", 9, 350⟩, ⟨7, "g", 2, 350⟩, ⟨8, "h", 6, 350⟩,
   ⟨9, "i", 5, 350⟩, ⟨10, "j", 3, 350⟩]

def capAC5 : PlayerRow := ⟨1, "A", 0, 0⟩

def capBC5 : PlayerRow := ⟨2, "B", 0, 0⟩

def poolC5 : List PlayerRow :=
  [⟨3, "p3", 0, 0⟩, ⟨4, "p4", 0, 0⟩, ⟨5, "p5", 0, 0⟩, ⟨6, "p6", 0, 0⟩,
   ⟨7, "p7", 0, 0⟩, ⟨8, "p8", 0, 0⟩, ⟨9, "p9", 0, 0⟩, ⟨10, "p10", 0, 0⟩]

def draftC6 : DraftState :=
  ⟨99, [⟨1, "A", 0, 0⟩, ⟨2, "B", 0, 0⟩],
   [⟨3, "p3", 0, 0⟩, ⟨4, "p4", 0, 0⟩], [⟨1, "A", 0, 0⟩], [⟨2, "B", 0, 0⟩], 0, 1, 1⟩

def draftC6cex : DraftState :=
  ⟨100, [⟨-1, "T1", 0, 0⟩, ⟨-2, "T2", 0, 0⟩],
   [⟨3, "p3", 0, 0⟩, ⟨4, "p4", 0, 0⟩], [⟨-1, "T1", 0, 0⟩], [⟨-2, "T2", 0, 0⟩], 0, 1, 1⟩

def rowC2 (i : ℤ) (nm : String) : PlayerRow := ⟨i, nm, 1500, 350⟩

def playersC2 : List PlayerRow :=
  [rowC2 1 "p1", rowC2 2 "p2", rowC2 3 "p3", rowC2 4 "p4", rowC2 5 "p5",
   rowC2 6 "p6", rowC2 7 "p7", rowC2 8 "p8", rowC2 9 "p9", rowC2 10 "p10"]

def membersC2 : List (ℤ × String) :=
  [(1, "p1"), (2, "p2"), (3, "p3"), (4, "p4"), (5, "p5"),
   (6, "p6"), (7, "p7"), (8, "p8"), (9, "p9"), (10, "p10")]

def stC2occupied : BotState :=
  { players := playersC2, matches_df := [],
    active_matches := [(0, { match_id := 111, team1 := [], team2 := [] })],
    pending_matches := [] }

def stC2pending : BotState :=
  { players := playersC2, matches_df := [], active_matches := [],
    pending_matches := [(0, ([rowC2 1 "p1"], [rowC2 2 "p2"]))] }

/-- Discriminator for the conflict outcome of recommend_teams. -/
def isConflictR : RecommendResult → Bool
  | .conflictActive => true
  | _ => false

def ceTeam1 : List (ℝ × ℝ) := [(1000, 350), (2000, 350)]

def ceTeam2 : List (ℝ × ℝ) := [(1500, 350), (1500, 350)]

def sessionC9 : Session :=
  { match_id := 777,
    team1 := [rowC2 1 "p1", rowC2 2 "p2", rowC2 3 "p3", rowC2 4 "p4", rowC2 5 "p5"],
    team2 := [rowC2 6 "p6", rowC2 7 "p7", rowC2 8 "p8", rowC2 9 "p9", rowC2 10 "p10"] }

def stC9 : BotState :=
  { players := playersC2, matches_df := [], active_matches := [(3, sessionC9)],
    pending_matches := [] }

def engineC9 : List (ℚ × ℚ) → List (ℚ × ℚ) → ℕ →
    List (ℚ × ℚ) × List (ℚ × ℚ) × List ℚ × List ℚ :=
  fun t1 t2 _ => (t1, t2, [], [])

def teamBlueC7 : List PlayerRow :=
  [⟨15, "x1", 1500, 350⟩, ⟨22, "x2", 1500, 350⟩, ⟨33, "x3", 1500, 350⟩,
   ⟨44, "x4", 1500, 350⟩, ⟨56, "x5", 1500, 350⟩]

def teamRedC7 : List PlayerRow :=
  [⟨71, "y1", 1500, 350⟩, ⟨72, "y2", 1500, 350⟩, ⟨73, "y3", 1500, 350⟩,
   ⟨74, "y4", 1500, 350⟩, ⟨76, "y5", 1500, 350⟩]

def recC7 : MatchRecord :=
  { match_id := 1001, winner := "🔵 Blue Team",
    team1_ids := joinIds teamBlueC7, team2_ids := joinIds teamRedC7,
    timestamp := "2024-05-01T10:00:00" }

-- ============================================================
-- Proof development
-- ============================================================

-- Basic facts about the engine components.

lemma g_inner_pos (s : ℝ) : 0 < 1 + 3 * s ^ 2 / Real.pi ^ 2 := by
  have h := Real.pi_pos
  positivity

lemma g_pos (s : ℝ) : 0 < g s := by
  unfold g
  have h := g_inner_pos s
  positivity

lemma g_sq (s : ℝ) : g s ^ 2 = 1 / (1 + 3 * s ^ 2 / Real.pi ^ 2) := by
  unfold g
  rw [div_pow, one_pow, Real.sq_sqrt (g_inner_pos s).le]

lemma E_pos (r1 r2 s2 : ℝ) : 0 < E r1 r2 s2 := by
  unfold E
  have h := Real.exp_pos (-g s2 * (r1 - r2))
  positivity

lemma E_lt_one (r1 r2 s2 : ℝ) : E r1 r2 s2 < 1 := by
  unfold E
  have h := Real.exp_pos (-g s2 * (r1 - r2))
  rw [div_lt_one (by linarith)]
  linarith

lemma v_uncertainty_pos (a b s2 : ℝ) :
    0 < (g s2 ^ 2 * E a b s2 * (1 - E a b s2))⁻¹ := by
  have hg := g_pos s2
  have hE := E_pos a b s2
  have hE1 := E_lt_one a b s2
  have : 0 < g s2 ^ 2 * E a b s2 * (1 - E a b s2) := by
    apply mul_pos (mul_pos (by positivity) hE)
    linarith
  exact inv_pos.mpr this

lemma stdev1_prime_pos (s1 a b s2 : ℝ) :
    0 < 1 / Real.sqrt (1 / Real.sqrt (s1 ^ 2 + 0.06 ^ 2) ^ 2 +
      1 / (g s2 ^ 2 * E a b s2 * (1 - E a b s2))⁻¹) := by
  have h1 : (0:ℝ) < s1 ^ 2 + 0.06 ^ 2 := by positivity
  have h2 : Real.sqrt (s1 ^ 2 + 0.06 ^ 2) ^ 2 = s1 ^ 2 + 0.06 ^ 2 :=
    Real.sq_sqrt h1.le
  have h3 := v_uncertainty_pos a b s2
  have h4 : 0 < 1 / Real.sqrt (s1 ^ 2 + 0.06 ^ 2) ^ 2 + 1 / (g s2 ^ 2 * E a b s2 * (1 - E a b s2))⁻¹ := by
    rw [h2]
    positivity
  have h5 : 0 < Real.sqrt (1 / Real.sqrt (s1 ^ 2 + 0.06 ^ 2) ^ 2 + 1 / (g s2 ^ 2 * E a b s2 * (1 - E a b s2))⁻¹) :=
    Real.sqrt_pos.mpr h4
  positivity

lemma round_nonneg_of_nonneg {x : ℝ} (hx : 0 ≤ x) : (0:ℤ) ≤ round x := by
  rw [round_eq]
  exact Int.le_floor.mpr (by push_cast; linarith)

/-- The deviation written back by rating_change is round of a positive
quantity: old deviation plus the deviation delta is nonnegative. -/
lemma rating_change_dev_nonneg (r1 d1 r2 d2 sc : ℝ) :
    0 ≤ d1 + (rating_change r1 d1 r2 d2 sc).2 := by
  simp only [rating_change]
  have hp := stdev1_prime_pos (d1 / 173.7178) ((r1 - 1500) / 173.7178)
    ((r2 - 1500) / 173.7178) (d2 / 173.7178)
  have hx : (0:ℝ) ≤ (1 / Real.sqrt (1 / Real.sqrt ((d1 / 173.7178) ^ 2 + 0.06 ^ 2) ^ 2 +
      1 / (g (d2 / 173.7178) ^ 2 * E ((r1 - 1500) / 173.7178) ((r2 - 1500) / 173.7178) (d2 / 173.7178) *
        (1 - E ((r1 - 1500) / 173.7178) ((r2 - 1500) / 173.7178) (d2 / 173.7178)))⁻¹)) * 173.7178 := by
    have : (0:ℝ) < 173.7178 := by norm_num
    exact (mul_pos hp this).le
  have hr := round_nonneg_of_nonneg hx
  have : (0:ℝ) ≤ (round ((1 / Real.sqrt (1 / Real.sqrt ((d1 / 173.7178) ^ 2 + 0.06 ^ 2) ^ 2 +
      1 / (g (d2 / 173.7178) ^ 2 * E ((r1 - 1500) / 173.7178) ((r2 - 1500) / 173.7178) (d2 / 173.7178) *
        (1 - E ((r1 - 1500) / 173.7178) ((r2 - 1500) / 173.7178) (d2 / 173.7178)))⁻¹)) * 173.7178) : ℤ) := by
    exact_mod_cast hr
  linarith

lemma E_self (x s : ℝ) : E x x s = 1 / 2 := by
  unfold E
  rw [sub_self, mul_zero, Real.exp_zero]
  norm_num

lemma XOf_pos (d : ℝ) : 0 < XOf d := g_inner_pos (d / 173.7178)

lemma spSq_pos (d : ℝ) : 0 < spSq d := by
  have h := XOf_pos d
  unfold spSq
  positivity

/-- rating_change, first component, rewritten as round (r1 + increment) - r1. -/
lemma rating_change_fst (r1 d1 r2 d2 sc : ℝ) :
    (rating_change r1 d1 r2 d2 sc).1 =
      (round (r1 + wGen r1 d1 r2 d2 sc) : ℝ) - r1 := by
  simp only [rating_change, wGen]
  have hst : Real.sqrt ((d1 / 173.7178) ^ 2 + 0.06 ^ 2) ^ 2 =
      (d1 / 173.7178) ^ 2 + 0.06 ^ 2 := Real.sq_sqrt (by positivity)
  rw [hst]
  have hv : (1:ℝ) / (g (d2 / 173.7178) ^ 2 *
      E ((r1 - 1500) / 173.7178) ((r2 - 1500) / 173.7178) (d2 / 173.7178) *
      (1 - E ((r1 - 1500) / 173.7178) ((r2 - 1500) / 173.7178) (d2 / 173.7178)))⁻¹ =
      g (d2 / 173.7178) ^ 2 *
      E ((r1 - 1500) / 173.7178) ((r2 - 1500) / 173.7178) (d2 / 173.7178) *
      (1 - E ((r1 - 1500) / 173.7178) ((r2 - 1500) / 173.7178) (d2 / 173.7178)) := by
    rw [one_div, inv_inv]
  rw [hv]
  set Ev := E ((r1 - 1500) / 173.7178) ((r2 - 1500) / 173.7178) (d2 / 173.7178) with hEv
  set gv := g (d2 / 173.7178) with hgv
  set sp := (1 : ℝ) / Real.sqrt (1 / ((d1 / 173.7178) ^ 2 + 0.06 ^ 2) +
    gv ^ 2 * Ev * (1 - Ev)) with hsp
  have harg : ((r1 - 1500) / 173.7178 + sp ^ 2 * gv * (sc - Ev)) * 173.7178 + 1500 =
      r1 + sp ^ 2 * gv * (sc - Ev) * 173.7178 := by
    field_simp
    ring
  rw [harg]

/-- At equal ratings and equal deviations the increment simplifies: the
expected score is 1/2 and the match-information term is 1/(4 XOf d). -/
lemma wGen_equal (r d sc : ℝ) :
    wGen r d r d sc = spSq d * (1 / Real.sqrt (XOf d)) * (sc - 1 / 2) * 173.7178 := by
  unfold wGen
  rw [E_self]
  have hg2 : g (d / 173.7178) ^ 2 = 1 / XOf d := g_sq (d / 173.7178)
  rw [hg2]
  have hX := XOf_pos d
  have hinner : (1:ℝ) / ((d / 173.7178) ^ 2 + 0.06 ^ 2) + 1 / XOf d * (1 / 2) * (1 - 1 / 2) =
      1 / ((d / 173.7178) ^ 2 + 0.06 ^ 2) + 1 / (4 * XOf d) := by
    congr 1
    rw [div_mul_eq_mul_div, div_mul_eq_mul_div]
    rw [div_eq_div_iff (by positivity) (by positivity)]
    ring
  rw [hinner]
  have hsum : (0:ℝ) < 1 / ((d / 173.7178) ^ 2 + 0.06 ^ 2) + 1 / (4 * XOf d) := by
    have h1 : (0:ℝ) < (d / 173.7178) ^ 2 + 0.06 ^ 2 := by positivity
    positivity
  have hsp2 : (1 / Real.sqrt (1 / ((d / 173.7178) ^ 2 + 0.06 ^ 2) + 1 / (4 * XOf d))) ^ 2 =
      spSq d := by
    rw [div_pow, one_pow, Real.sq_sqrt hsum.le]
    rfl
  rw [hsp2]
  have hgX : g (d / 173.7178) = 1 / Real.sqrt (XOf d) := rfl
  rw [hgX]

/-- rating_change at equal ratings and deviations: the delta is round of the
old rating plus a symmetric increment. -/
lemma rating_change_equal (r d sc : ℝ) :
    (rating_change r d r d sc).1 =
      (round (r + spSq d * (1 / Real.sqrt (XOf d)) * (sc - 1 / 2) * 173.7178) : ℝ) - r := by
  rw [rating_change_fst, wGen_equal]

-- Numeric bounds at the default deviation 350.

lemma X350_gt : (2.2338:ℝ) < XOf 350 := by
  unfold XOf
  have hπu : Real.pi < 3.141593 := Real.pi_lt_d6
  have hπ2 : Real.pi ^ 2 < 9.869607 := by nlinarith [Real.pi_pos]
  have h2 : (0:ℝ) < Real.pi ^ 2 := by positivity
  have key : (1.2338:ℝ) < 3 * ((350:ℝ) / 173.7178) ^ 2 / Real.pi ^ 2 := by
    rw [lt_div_iff₀ h2]
    nlinarith
  linarith

lemma X350_lt : XOf 350 < 2.2339 := by
  unfold XOf
  have hπl : (3.141592:ℝ) < Real.pi := Real.pi_gt_d6
  have hπ2 : (9.8696:ℝ) < Real.pi ^ 2 := by nlinarith [Real.pi_pos]
  have h2 : (0:ℝ) < Real.pi ^ 2 := by positivity
  have key : 3 * ((350:ℝ) / 173.7178) ^ 2 / Real.pi ^ 2 < 1.2339 := by
    rw [div_lt_iff₀ h2]
    nlinarith
  linarith

lemma sqrtX350_gt : (1.4945:ℝ) < Real.sqrt (XOf 350) := by
  rw [Real.lt_sqrt (by norm_num)]
  have := X350_gt
  nlinarith

lemma sqrtX350_lt : Real.sqrt (XOf 350) < 1.4947 := by
  rw [Real.sqrt_lt' (by norm_num)]
  have := X350_lt
  nlinarith

lemma spSq350_gt : (2.7929:ℝ) < spSq 350 := by
  unfold spSq
  have hX := X350_gt
  have hXp := XOf_pos 350
  have ha : (0:ℝ) < ((350:ℝ) / 173.7178) ^ 2 + 0.06 ^ 2 := by positivity
  have h4 : (1:ℝ) / (4 * XOf 350) < 1 / (4 * 2.2338) := by
    apply one_div_lt_one_div_of_lt (by norm_num)
    linarith
  have hsum : (1:ℝ) / (((350:ℝ) / 173.7178) ^ 2 + 0.06 ^ 2) + 1 / (4 * XOf 350) <
      1 / (((350:ℝ) / 173.7178) ^ 2 + 0.06 ^ 2) + 1 / (4 * 2.2338) := by linarith
  have hub : (1:ℝ) / (((350:ℝ) / 173.7178) ^ 2 + 0.06 ^ 2) + 1 / (4 * 2.2338) < 0.358052 := by
    norm_num
  have hsumpos : (0:ℝ) < 1 / (((350:ℝ) / 173.7178) ^ 2 + 0.06 ^ 2) + 1 / (4 * XOf 350) := by
    positivity
  rw [lt_div_iff₀ hsumpos]
  nlinarith

lemma spSq350_lt : spSq 350 < 2.7930 := by
  unfold spSq
  have hX := X350_lt
  have hXp := XOf_pos 350
  have h4 : (1:ℝ) / (4 * 2.2339) < 1 / (4 * XOf 350) := by
    apply one_div_lt_one_div_of_lt (by positivity)
    linarith
  have hlb : (0.358043:ℝ) < 1 / (((350:ℝ) / 173.7178) ^ 2 + 0.06 ^ 2) + 1 / (4 * 2.2339) := by
    norm_num
  have hsumpos : (0:ℝ) < 1 / (((350:ℝ) / 173.7178) ^ 2 + 0.06 ^ 2) + 1 / (4 * XOf 350) := by
    positivity
  rw [div_lt_iff₀ hsumpos]
  nlinarith

/-- The symmetric increment at the defaults (1500, 350) lies strictly
between 162.2 and 162.4, so the win delta rounds to 162. -/
lemma w350_bounds :
    (162.2:ℝ) < spSq 350 * (1 / Real.sqrt (XOf 350)) * (1 / 2) * 173.7178 ∧
      spSq 350 * (1 / Real.sqrt (XOf 350)) * (1 / 2) * 173.7178 < 162.4 := by
  have h1 := spSq350_gt
  have h2 := spSq350_lt
  have h3 := sqrtX350_gt
  have h4 := sqrtX350_lt
  have hs : (0:ℝ) < Real.sqrt (XOf 350) := Real.sqrt_pos.mpr (XOf_pos 350)
  have hinvl : (1:ℝ) / 1.4947 < 1 / Real.sqrt (XOf 350) :=
    one_div_lt_one_div_of_lt hs h4
  have hinvu : (1:ℝ) / Real.sqrt (XOf 350) < 1 / 1.4945 :=
    one_div_lt_one_div_of_lt (by norm_num) h3
  have hinvpos : (0:ℝ) < 1 / Real.sqrt (XOf 350) := by positivity
  constructor
  · nlinarith
  · nlinarith

lemma rc_default_win : (rating_change 1500 350 1500 350 1).1 = 162 := by
  rw [rating_change_equal]
  have hb := w350_bounds
  have h1 : ((1:ℝ) - 1 / 2) = 1 / 2 := by norm_num
  rw [h1]
  have hround : round ((1500:ℝ) + spSq 350 * (1 / Real.sqrt (XOf 350)) * (1 / 2) * 173.7178) =
      1662 := by
    rw [round_eq]
    apply Int.floor_eq_iff.mpr
    constructor
    · push_cast
      linarith [hb.1]
    · push_cast
      linarith [hb.2]
  rw [hround]
  norm_num

lemma rc_default_loss : (rating_change 1500 350 1500 350 0).1 = -162 := by
  rw [rating_change_equal]
  have hb := w350_bounds
  have h1 : spSq 350 * (1 / Real.sqrt (XOf 350)) * ((0:ℝ) - 1 / 2) * 173.7178 =
      -(spSq 350 * (1 / Real.sqrt (XOf 350)) * (1 / 2) * 173.7178) := by ring
  rw [h1]
  have hround : round ((1500:ℝ) + -(spSq 350 * (1 / Real.sqrt (XOf 350)) * (1 / 2) * 173.7178)) =
      1338 := by
    rw [round_eq]
    apply Int.floor_eq_iff.mpr
    constructor
    · push_cast
      linarith [hb.2]
    · push_cast
      linarith [hb.1]
  rw [hround]
  norm_num

-- Zero deviation: the increment is below one half, so the delta rounds to 0.

lemma XOf_zero : XOf 0 = 1 := by
  unfold XOf
  norm_num

lemma spSq_zero : spSq 0 = 36 / 10009 := by
  unfold spSq
  rw [XOf_zero]
  norm_num

lemma rc_zero_win : (rating_change 1500 0 1500 0 1).1 = 0 := by
  rw [rating_change_equal, XOf_zero, Real.sqrt_one, spSq_zero]
  have hround : round ((1500:ℝ) + 36 / 10009 * (1 / 1) * ((1:ℝ) - 1 / 2) * 173.7178) = 1500 := by
    rw [round_eq]
    apply Int.floor_eq_iff.mpr
    constructor
    · push_cast
      norm_num
    · push_cast
      norm_num
  rw [hround]
  norm_num

lemma rc_zero_loss : (rating_change 1500 0 1500 0 0).1 = 0 := by
  rw [rating_change_equal, XOf_zero, Real.sqrt_one, spSq_zero]
  have hround : round ((1500:ℝ) + 36 / 10009 * (1 / 1) * ((0:ℝ) - 1 / 2) * 173.7178) = 1500 := by
    rw [round_eq]
    apply Int.floor_eq_iff.mpr
    constructor
    · push_cast
      norm_num
    · push_cast
      norm_num
  rw [hround]
  norm_num

lemma wEq_pos (d : ℝ) : 0 < spSq d * (1 / Real.sqrt (XOf d)) * (1 / 2) * 173.7178 := by
  have h1 := spSq_pos d
  have h2 : (0:ℝ) < Real.sqrt (XOf d) := Real.sqrt_pos.mpr (XOf_pos d)
  positivity

/-- At equal ratings and deviations, with an integer-valued old rating, a win
never lowers the stored rating. -/
lemma rc_win_nonneg (r : ℤ) (d : ℝ) : 0 ≤ (rating_change r d r d 1).1 := by
  rw [rating_change_equal]
  have hw := wEq_pos d
  have h1 : spSq d * (1 / Real.sqrt (XOf d)) * ((1:ℝ) - 1 / 2) * 173.7178 =
      spSq d * (1 / Real.sqrt (XOf d)) * (1 / 2) * 173.7178 := by norm_num
  rw [h1]
  have hr : r ≤ round ((r:ℝ) + spSq d * (1 / Real.sqrt (XOf d)) * (1 / 2) * 173.7178) := by
    rw [round_eq]
    apply Int.le_floor.mpr
    linarith
  have : (r:ℝ) ≤ (round ((r:ℝ) + spSq d * (1 / Real.sqrt (XOf d)) * (1 / 2) * 173.7178) : ℝ) := by
    exact_mod_cast hr
  linarith

/-- At equal ratings and deviations, with an integer-valued old rating, a loss
never raises the stored rating. -/
lemma rc_loss_nonpos (r : ℤ) (d : ℝ) : (rating_change r d r d 0).1 ≤ 0 := by
  rw [rating_change_equal]
  have hw := wEq_pos d
  have h1 : spSq d * (1 / Real.sqrt (XOf d)) * ((0:ℝ) - 1 / 2) * 173.7178 =
      -(spSq d * (1 / Real.sqrt (XOf d)) * (1 / 2) * 173.7178) := by ring
  rw [h1]
  have hr : round ((r:ℝ) + -(spSq d * (1 / Real.sqrt (XOf d)) * (1 / 2) * 173.7178)) ≤ r := by
    rw [round_eq]
    have hlt : ⌊(r:ℝ) + -(spSq d * (1 / Real.sqrt (XOf d)) * (1 / 2) * 173.7178) + 1 / 2⌋ < r + 1 := by
      apply Int.floor_lt.mpr
      push_cast
      linarith
    omega
  have : ((round ((r:ℝ) + -(spSq d * (1 / Real.sqrt (XOf d)) * (1 / 2) * 173.7178))) : ℝ) ≤ (r:ℝ) := by
    exact_mod_cast hr
  linarith

lemma g350_eq : g ((350:ℝ) / 173.7178) = 1 / Real.sqrt (XOf 350) := rfl

lemma g350_gt : (1:ℝ) / 1.4947 < g ((350:ℝ) / 173.7178) := by
  rw [g350_eq]
  exact one_div_lt_one_div_of_lt (Real.sqrt_pos.mpr (XOf_pos 350)) sqrtX350_lt

lemma g350_sq_lt : g ((350:ℝ) / 173.7178) ^ 2 < 1 / 2.2338 := by
  have h : g ((350:ℝ) / 173.7178) ^ 2 = 1 / XOf 350 := g_sq _
  rw [h]
  exact one_div_lt_one_div_of_lt (by norm_num) X350_gt

/-- The expected score of a 1000-rated player against a 1500-rated opponent
with deviation 350 is below 0.2548 (using exp x at least 1 + x). -/
lemma E1000_lt :
    E (((1000:ℝ) - 1500) / 173.7178) (((1500:ℝ) - 1500) / 173.7178) ((350:ℝ) / 173.7178) <
      0.2548 := by
  unfold E
  have hsub : ((1000:ℝ) - 1500) / 173.7178 - ((1500:ℝ) - 1500) / 173.7178 =
      -(500 / 173.7178) := by norm_num
  rw [hsub]
  have hneg : -g ((350:ℝ) / 173.7178) * -(500 / 173.7178) =
      g ((350:ℝ) / 173.7178) * (500 / 173.7178) := by ring
  rw [hneg]
  have hq : (1.9255:ℝ) < g ((350:ℝ) / 173.7178) * (500 / 173.7178) := by
    nlinarith [g350_gt]
  have hexp : (2.9255:ℝ) < Real.exp (g ((350:ℝ) / 173.7178) * (500 / 173.7178)) := by
    have := Real.add_one_le_exp (g ((350:ℝ) / 173.7178) * (500 / 173.7178))
    linarith
  have hpos : (0:ℝ) < 1 + Real.exp (g ((350:ℝ) / 173.7178) * (500 / 173.7178)) := by
    have := Real.exp_pos (g ((350:ℝ) / 173.7178) * (500 / 173.7178))
    linarith
  rw [div_lt_iff₀ hpos]
  nlinarith

set_option maxHeartbeats 1000000 in
/-- The win delta of a 1000-rated player against a 1500/350 average opponent
is at least 163: strictly more than the 162 produced at equal ratings. -/
lemma rc_1000_win_ge : (163:ℝ) ≤ (rating_change 1000 350 1500 350 1).1 := by
  rw [rating_change_fst]
  have hW : (162.5:ℝ) ≤ wGen 1000 350 1500 350 1 := by
    unfold wGen
    set Ev := E (((1000:ℝ) - 1500) / 173.7178) (((1500:ℝ) - 1500) / 173.7178)
      ((350:ℝ) / 173.7178) with hEv
    have hEu : Ev < 0.2548 := by rw [hEv]; exact E1000_lt
    have hEl : 0 < Ev := by rw [hEv]; exact E_pos _ _ _
    have hGl := g350_gt
    have hGpos : 0 < g ((350:ℝ) / 173.7178) := g_pos _
    have hg2p : 0 < g ((350:ℝ) / 173.7178) ^ 2 := by positivity
    have hEp : 0 < Ev * (1 - Ev) := mul_pos hEl (by linarith)
    have hEq : Ev * (1 - Ev) ≤ 1 / 4 := by nlinarith [sq_nonneg (Ev - 1 / 2)]
    have hprod : g ((350:ℝ) / 173.7178) ^ 2 * Ev * (1 - Ev) ≤ 1 / 2.2338 * (1 / 4) := by
      have h1 : g ((350:ℝ) / 173.7178) ^ 2 * Ev * (1 - Ev) =
          g ((350:ℝ) / 173.7178) ^ 2 * (Ev * (1 - Ev)) := by ring
      rw [h1]
      exact mul_le_mul g350_sq_lt.le hEq hEp.le (by norm_num)
    have hprodpos : 0 < g ((350:ℝ) / 173.7178) ^ 2 * Ev * (1 - Ev) := by
      have h1 : g ((350:ℝ) / 173.7178) ^ 2 * Ev * (1 - Ev) =
          g ((350:ℝ) / 173.7178) ^ 2 * (Ev * (1 - Ev)) := by ring
      rw [h1]
      exact mul_pos hg2p hEp
    set S := 1 / (((350:ℝ) / 173.7178) ^ 2 + 0.06 ^ 2) +
      g ((350:ℝ) / 173.7178) ^ 2 * Ev * (1 - Ev) with hS
    have hapos : (0:ℝ) < 1 / (((350:ℝ) / 173.7178) ^ 2 + 0.06 ^ 2) := by positivity
    have hSpos : 0 < S := by rw [hS]; linarith
    have hSu : S < 0.35805 := by
      rw [hS]
      have : (1:ℝ) / (((350:ℝ) / 173.7178) ^ 2 + 0.06 ^ 2) + 1 / 2.2338 * (1 / 4) <
          0.35805 := by norm_num
      linarith
    have hsp2 : (1 / Real.sqrt S) ^ 2 = 1 / S := by
      rw [div_pow, one_pow, Real.sq_sqrt hSpos.le]
    rw [hsp2]
    have hinvS : (2.7929:ℝ) < 1 / S := by
      rw [lt_div_iff₀ hSpos]
      nlinarith
    have h1mE : (0.7452:ℝ) < 1 - Ev := by linarith
    have hpos1 : (0:ℝ) < 1 / S := by positivity
    have m1 : (2.7929:ℝ) * (1 / 1.4947) < 1 / S * g ((350:ℝ) / 173.7178) := by
      nlinarith [mul_pos (sub_pos.mpr hinvS) (sub_pos.mpr hGl)]
    have m2 : (2.7929:ℝ) * (1 / 1.4947) * 0.7452 < 1 / S * g ((350:ℝ) / 173.7178) * (1 - Ev) := by
      nlinarith [mul_pos (sub_pos.mpr m1) (sub_pos.mpr h1mE)]
    have hcst : (162.5:ℝ) ≤ 2.7929 * (1 / 1.4947) * 0.7452 * 173.7178 := by norm_num
    have m3 : (2.7929:ℝ) * (1 / 1.4947) * 0.7452 * 173.7178 ≤
        1 / S * g ((350:ℝ) / 173.7178) * (1 - Ev) * 173.7178 :=
      mul_le_mul_of_nonneg_right m2.le (by norm_num)
    linarith
  have hr : (1163:ℤ) ≤ round ((1000:ℝ) + wGen 1000 350 1500 350 1) := by
    rw [round_eq]
    apply Int.le_floor.mpr
    push_cast
    linarith
  have hc : ((1163:ℤ):ℝ) ≤ (round ((1000:ℝ) + wGen 1000 350 1500 350 1) : ℝ) := by
    exact_mod_cast hr
  push_cast at hc
  linarith

-- ============================================================
-- Lemmas about combinations and the balance_teams fold
-- ============================================================

lemma combinations_sublist_mem {α : Type} :
    ∀ {c l : List α}, c.Sublist l → ∀ {n : ℕ}, c.length = n → c ∈ combinations n l := by
  intro c l hsub
  induction hsub with
  | slnil =>
      intro n hlen
      have h0 : n = 0 := by simpa using hlen.symm
      subst h0
      simp [combinations]
  | @cons l₁ l₂ a hs ih =>
      intro n hlen
      cases n with
      | zero =>
          have h0 : l₁ = [] := List.length_eq_zero.mp hlen
          subst h0
          simp [combinations]
      | succ n =>
          show l₁ ∈ (combinations n l₂).map (fun c => a :: c) ++ combinations (n + 1) l₂
          exact List.mem_append_right _ (ih hlen)
  | @cons₂ l₁ l₂ a hs ih =>
      intro n hlen
      cases n with
      | zero => simp at hlen
      | succ n =>
          have hl : l₁.length = n := by simpa using hlen
          show a :: l₁ ∈ (combinations n l₂).map (fun c => a :: c) ++ combinations (n + 1) l₂
          exact List.mem_append_left _ (List.mem_map_of_mem _ (ih hl))

lemma mem_combinations_sublist {α : Type} :
    ∀ (n : ℕ) (l c : List α), c ∈ combinations n l → c.Sublist l ∧ c.length = n
  | 0, l, c, hc => by
      simp only [combinations, List.mem_singleton] at hc
      subst hc
      simp
  | n + 1, [], c, hc => by simp [combinations] at hc
  | n + 1, x :: xs, c, hc => by
      simp only [combinations, List.mem_append, List.mem_map] at hc
      rcases hc with ⟨c1, hc1, rfl⟩ | hc
      · have h := mem_combinations_sublist n xs c1 hc1
        exact ⟨List.Sublist.cons₂ x h.1, by simp [h.2]⟩
      · have h := mem_combinations_sublist (n + 1) xs c hc
        exact ⟨h.1.cons x, h.2⟩

lemma foldMin_nil {α : Type} (f : α → ℚ) (b : α) : foldMin f b [] = b := rfl

lemma foldMin_cons {α : Type} (f : α → ℚ) (b x : α) (l : List α) :
    foldMin f b (x :: l) = foldMin f (if f x < f b then x else b) l := rfl

lemma foldMin_le_start {α : Type} (f : α → ℚ) :
    ∀ (l : List α) (b : α), f (foldMin f b l) ≤ f b := by
  intro l
  induction l with
  | nil => intro b; exact le_refl _
  | cons x l ih =>
      intro b
      rw [foldMin_cons]
      rcases lt_or_ge (f x) (f b) with h | h
      · rw [if_pos h]
        exact (ih x).trans h.le
      · rw [if_neg (not_lt.mpr h)]
        exact ih b

lemma foldMin_le_mem {α : Type} (f : α → ℚ) :
    ∀ (l : List α) (b : α) (x : α), x ∈ l → f (foldMin f b l) ≤ f x := by
  intro l
  induction l with
  | nil => intro b x hx; simp at hx
  | cons y l ih =>
      intro b x hx
      rw [foldMin_cons]
      rcases List.mem_cons.mp hx with rfl | hx
      · rcases lt_or_ge (f x) (f b) with h | h
        · rw [if_pos h]; exact foldMin_le_start f l x
        · rw [if_neg (not_lt.mpr h)]
          exact (foldMin_le_start f l b).trans h
      · rcases lt_or_ge (f y) (f b) with h | h
        · rw [if_pos h]; exact ih y x hx
        · rw [if_neg (not_lt.mpr h)]; exact ih b x hx

lemma foldMin_mem {α : Type} (f : α → ℚ) :
    ∀ (l : List α) (b : α), foldMin f b l ∈ b :: l := by
  intro l
  induction l with
  | nil => intro b; simp [foldMin_nil]
  | cons x l ih =>
      intro b
      rw [foldMin_cons]
      rcases lt_or_ge (f x) (f b) with h | h
      · rw [if_pos h]
        have := ih x
        simp only [List.mem_cons] at this ⊢
        tauto
      · rw [if_neg (not_lt.mpr h)]
        have := ih b
        simp only [List.mem_cons] at this ⊢
        tauto

lemma foldMin_eq_or_lt {α : Type} (f : α → ℚ) :
    ∀ (l : List α) (b : α), foldMin f b l = b ∨ f (foldMin f b l) < f b := by
  intro l
  induction l with
  | nil => intro b; left; rfl
  | cons x l ih =>
      intro b
      rw [foldMin_cons]
      rcases lt_or_ge (f x) (f b) with h | h
      · rw [if_pos h]
        right
        exact (foldMin_le_start f l x).trans_lt h
      · rw [if_neg (not_lt.mpr h)]
        exact ih b

/-- The fold result is the first element (start included) attaining its
value of f: the strict-inequality update keeps the earliest minimum. -/
lemma foldMin_find {α : Type} (f : α → ℚ) :
    ∀ (l : List α) (b : α),
      (b :: l).find? (fun x => decide (f x = f (foldMin f b l))) = some (foldMin f b l) := by
  intro l
  induction l with
  | nil =>
      intro b
      simp [foldMin_nil, List.find?]
  | cons x l ih =>
      intro b
      rw [foldMin_cons]
      rcases lt_or_ge (f x) (f b) with h | h
      · rw [if_pos h]
        have hmle : f (foldMin f x l) ≤ f x := foldMin_le_start f l x
        have hbne : ¬ (f b = f (foldMin f x l)) := by
          intro heq
          rw [heq] at h
          exact absurd (hmle.trans_lt h) (lt_irrefl _)
        rw [List.find?_cons_of_neg _ (by simpa using hbne)]
        exact ih x
      · rw [if_neg (not_lt.mpr h)]
        by_cases hb : f b = f (foldMin f b l)
        · have : foldMin f b l = b := by
            rcases foldMin_eq_or_lt f l b with heq | hlt
            · exact heq
            · rw [← hb] at hlt
              exact absurd hlt (lt_irrefl _)
          rw [this] at hb ⊢
          exact List.find?_cons_of_pos _ (by simp)
        · have hIH := ih b
          rw [List.find?_cons_of_neg _ (by simpa using hb)] at hIH
          have hxne : ¬ (f x = f (foldMin f b l)) := by
            intro heq
            have h1 : f (foldMin f b l) ≤ f b := foldMin_le_start f l b
            rw [← heq] at h1
            have : f b = f x := le_antisymm h h1
            rw [this] at hb
            exact hb heq
          rw [List.find?_cons_of_neg _ (by simpa using hb),
            List.find?_cons_of_neg _ (by simpa using hxne)]
          exact hIH

lemma balanceLoop_none (c : List PlayerRow × List PlayerRow)
    (cs : List (List PlayerRow × List PlayerRow)) (b : List PlayerRow × List PlayerRow) :
    balanceLoop (c :: cs) none b = balanceLoop cs (some (teamDiff c.1 c.2)) c := by
  simp [balanceLoop]

lemma balanceLoop_some_eq_foldMin :
    ∀ (cs : List (List PlayerRow × List PlayerRow)) (c : List PlayerRow × List PlayerRow),
      balanceLoop cs (some (teamDiff c.1 c.2)) c = foldMin candDiff c cs := by
  intro cs
  induction cs with
  | nil => intro c; rfl
  | cons x rest ih =>
      intro c
      rw [foldMin_cons]
      show (if (decide (teamDiff x.1 x.2 < teamDiff c.1 c.2) : Bool) then
          balanceLoop rest (some (teamDiff x.1 x.2)) x
        else balanceLoop rest (some (teamDiff c.1 c.2)) c) = _
      rcases lt_or_ge (teamDiff x.1 x.2) (teamDiff c.1 c.2) with h | h
      · rw [if_pos (by simpa [candDiff] using h), if_pos (by simpa [candDiff] using h)]
        exact ih x
      · rw [if_neg (by simpa [candDiff] using not_lt.mpr h),
          if_neg (by simpa [candDiff] using not_lt.mpr h)]
        exact ih c

/-- balance_teams, rewritten as the first-minimum fold over the candidate
splits, whenever there is at least one candidate. -/
lemma balance_teams_eq_foldMin (players : List PlayerRow)
    (c : List PlayerRow × List PlayerRow) (cs : List (List PlayerRow × List PlayerRow))
    (hc : (combinations 5 players).map (fun team1_list =>
        (team1_list, players.filter (fun p => decide (p ∉ team1_list)))) = c :: cs) :
    balance_teams players = foldMin candDiff c cs := by
  unfold balance_teams
  rw [hc, balanceLoop_none, balanceLoop_some_eq_foldMin]

lemma foldMin_le_all {α : Type} (f : α → ℚ) (l : List α) (b : α) (y : α)
    (hy : y ∈ b :: l) : f (foldMin f b l) ≤ f y := by
  rcases List.mem_cons.mp hy with rfl | hy
  · exact foldMin_le_start f l y
  · exact foldMin_le_mem f l b y hy

lemma filter_mem_of_sublist_nodup {α : Type} [DecidableEq α] :
    ∀ {c l : List α}, c.Sublist l → l.Nodup → l.filter (fun p => decide (p ∈ c)) = c := by
  intro c l hsub
  induction hsub with
  | slnil => intro _; rfl
  | @cons l₁ l₂ a hs ih =>
      intro hnd
      obtain ⟨hna, hnd2⟩ := List.nodup_cons.mp hnd
      have hnac : a ∉ l₁ := fun h => hna (hs.subset h)
      rw [List.filter_cons]
      have hdec : (decide (a ∈ l₁)) = false := by simpa using hnac
      rw [hdec]
      simpa using ih hnd2
  | @cons₂ l₁ l₂ a hs ih =>
      intro hnd
      obtain ⟨hna, hnd2⟩ := List.nodup_cons.mp hnd
      rw [List.filter_cons]
      have hdec : (decide (a ∈ a :: l₁)) = true := by simp
      rw [hdec]
      simp only [if_true]
      congr 1
      have hcongr : l₂.filter (fun p => decide (p ∈ a :: l₁)) =
          l₂.filter (fun p => decide (p ∈ l₁)) := by
        apply List.filter_congr
        intro b hb
        have hne : b ≠ a := fun h => hna (h ▸ hb)
        simp [List.mem_cons, hne]
      rw [hcongr]
      exact ih hnd2

lemma append_filter_perm {α : Type} [DecidableEq α] {c l : List α}
    (hsub : c.Sublist l) (hnd : l.Nodup) :
    (c ++ l.filter (fun p => decide (p ∉ c))).Perm l := by
  have h1 := List.filter_append_perm (fun p => decide (p ∈ c)) l
  rw [filter_mem_of_sublist_nodup hsub hnd] at h1
  have h2 : l.filter (fun p => decide (p ∉ c)) =
      l.filter (fun p => !(decide (p ∈ c))) := by
    apply List.filter_congr
    intro b _
    simp [decide_not]
  rw [h2]
  exact h1

lemma balance_teams_spec (players : List PlayerRow)
    (h10 : players.length = 10) (hnd : players.Nodup) : balanceSpec players := by
  classical
  set F : List PlayerRow → List PlayerRow × List PlayerRow :=
    fun team1_list => (team1_list, players.filter (fun p => decide (p ∉ team1_list))) with hF
  have htake : (players.take 5) ∈ combinations 5 players :=
    combinations_sublist_mem (List.take_sublist 5 players)
      (by rw [List.length_take, h10]; rfl)
  have hne : (combinations 5 players).map F ≠ [] := by
    intro h
    rw [List.map_eq_nil_iff] at h
    rw [h] at htake
    simp at htake
  obtain ⟨c, cs, hcons⟩ := List.exists_cons_of_ne_nil hne
  have hbt : balance_teams players = foldMin candDiff c cs :=
    balance_teams_eq_foldMin players c cs hcons
  have hmem : balance_teams players ∈ (combinations 5 players).map F := by
    rw [hbt, hcons]
    exact foldMin_mem candDiff cs c
  obtain ⟨t1, ht1mem, hFt1⟩ := List.mem_map.mp hmem
  obtain ⟨ht1sub, ht1len⟩ := mem_combinations_sublist 5 players t1 ht1mem
  have hfst : (balance_teams players).1 = t1 := by rw [← hFt1]
  have hsnd : (balance_teams players).2 = players.filter (fun p => decide (p ∉ t1)) := by
    rw [← hFt1]
  have hperm : ((balance_teams players).1 ++ (balance_teams players).2).Perm players := by
    rw [hfst, hsnd]
    exact append_filter_perm ht1sub hnd
  have hlen2 : (balance_teams players).2.length = 5 := by
    have := hperm.length_eq
    rw [List.length_append, hfst, ht1len, h10] at this
    omega
  have hopt : ∀ y ∈ (combinations 5 players).map F,
      candDiff (balance_teams players) ≤ candDiff y := by
    intro y hy
    rw [hcons] at hy
    rw [hbt]
    exact foldMin_le_all candDiff cs c y hy
  refine ⟨by rw [hfst]; exact ht1len, hlen2, ?_, hperm, ?_, ?_⟩
  · intro p hp
    rw [hsnd]
    intro hmem2
    have := (List.mem_filter.mp hmem2).2
    rw [hfst] at hp
    simp only [decide_eq_true_eq] at this
    exact this hp
  · intro c2 hc2sub hc2len
    have hc2 : c2 ∈ combinations 5 players := combinations_sublist_mem hc2sub hc2len
    have := hopt (F c2) (List.mem_map_of_mem F hc2)
    simpa [candDiff, hF] using this
  · refine ⟨candDiff (balance_teams players), ?_, ?_⟩
    · intro c2 hc2
      have := hopt (F c2) (List.mem_map_of_mem F hc2)
      simpa [candDiff, hF] using this
    · have hfind : ((combinations 5 players).map F).find?
          (fun y => decide (candDiff y = candDiff (balance_teams players))) =
          some (balance_teams players) := by
        rw [hcons, hbt]
        exact foldMin_find candDiff cs c
      rw [List.find?_map] at hfind
      have hpred : ((fun y => decide (candDiff y = candDiff (balance_teams players))) ∘ F) =
          (fun c2 => decide (teamDiff c2 (players.filter (fun p => decide (p ∉ c2))) =
            candDiff (balance_teams players))) := rfl
      rw [hpred] at hfind
      obtain ⟨t1x, hfindx, hFx⟩ := Option.map_eq_some'.mp hfind
      rw [hfindx]
      have : t1x = (balance_teams players).1 := by
        rw [← hFx]
      rw [this]

-- ============================================================
-- Lemmas about the draft state machine
-- ============================================================

lemma pool_nodup_of_ids_nodup {l : List PlayerRow}
    (h : (l.map (fun p => p.discord_id)).Nodup) : l.Nodup := h.of_map _

lemma id_inj_of_ids_nodup {l : List PlayerRow}
    (h : (l.map (fun p => p.discord_id)).Nodup) {p q : PlayerRow}
    (hp : p ∈ l) (hq : q ∈ l) (heq : p.discord_id = q.discord_id) : p = q := by
  exact List.inj_on_of_nodup_map h hp hq heq

/-- Soundness of the pick-move loop: when the pool ids are distinct, the
picked ids are distinct and all present, the loop succeeds, removes
exactly the picked players (complement in pool order) and appends one
picked player per id to the team. -/
lemma movePlayers_spec :
    ∀ (pids : List ℤ) (pool team : List PlayerRow),
      (pool.map (fun p => p.discord_id)).Nodup →
      pids.Nodup →
      (∀ a ∈ pids, a ∈ pool.map (fun p => p.discord_id)) →
      ∃ picked,
        movePlayers pool team pids =
          some (pool.filter (fun p => decide (p.discord_id ∉ pids)), team ++ picked) ∧
        picked.length = pids.length ∧ (∀ p ∈ picked, p ∈ pool)
  | [], pool, team, _, _, _ => by
      refine ⟨[], ?_, rfl, by simp⟩
      simp [movePlayers]
  | pid :: rest, pool, team, hnd, hpnd, hsub => by
      have hpid : pid ∈ pool.map (fun p => p.discord_id) := hsub pid (by simp)
      obtain ⟨p, hp_mem, hp_id⟩ := List.mem_map.mp hpid
      have hfind : pool.find? (fun q => q.discord_id == pid) = some p := by
        rcases hfound : pool.find? (fun q => q.discord_id == pid) with _ | q
        · exfalso
          have := List.find?_eq_none.mp hfound p hp_mem
          simp [hp_id] at this
        · have hq_mem := List.mem_of_find?_eq_some hfound
          have hq_id : q.discord_id = pid := by
            have := List.find?_some hfound
            simpa using this
          have hqp : q = p := id_inj_of_ids_nodup hnd hq_mem hp_mem (by rw [hq_id, hp_id])
          rw [hfound, hqp]
      obtain ⟨hpindistinct, hrestnd⟩ := List.nodup_cons.mp hpnd
      have hpoolnd : pool.Nodup := pool_nodup_of_ids_nodup hnd
      have herase : pool.erase p = pool.filter (fun x => x != p) :=
        List.Nodup.erase_eq_filter hpoolnd p
      -- ids of the reduced pool stay nodup
      have hnd1 : ((pool.erase p).map (fun q => q.discord_id)).Nodup := by
        exact ((pool.erase_sublist p).map _).nodup hnd
      have hsub1 : ∀ a ∈ rest, a ∈ (pool.erase p).map (fun q => q.discord_id) := by
        intro a ha
        have hamem := hsub a (List.mem_cons_of_mem pid ha)
        obtain ⟨q, hq_mem, hq_id⟩ := List.mem_map.mp hamem
        have hqne : q ≠ p := by
          intro h
          rw [h, hp_id] at hq_id
          exact hpindistinct (hq_id ▸ ha)
        refine List.mem_map.mpr ⟨q, ?_, hq_id⟩
        rw [herase]
        exact List.mem_filter.mpr ⟨hq_mem, by simpa using hqne⟩
      obtain ⟨picked, hmv, hlen, hmem⟩ :=
        movePlayers_spec rest (pool.erase p) (team ++ [p]) hnd1 hrestnd hsub1
      have hfilters : (pool.erase p).filter (fun q => decide (q.discord_id ∉ rest)) =
          pool.filter (fun q => decide (q.discord_id ∉ pid :: rest)) := by
        rw [herase, List.filter_filter]
        apply List.filter_congr
        intro q hq
        by_cases hqp : q = p
        · subst hqp
          simp [hp_id]
        · have hqid : q.discord_id ≠ pid := by
            intro h
            exact hqp (id_inj_of_ids_nodup hnd hq hp_mem (by rw [h, hp_id]))
          simp [List.mem_cons, hqid, hqp]
      refine ⟨p :: picked, ?_, by simp [hlen], ?_⟩
      · show movePlayers pool team (pid :: rest) = _
        simp only [movePlayers, hfind, hmv]
        rw [hfilters]
        simp
      · intro q hq
        rcases List.mem_cons.mp hq with rfl | hq
        · exact hp_mem
        · exact (pool.erase_sublist p).subset (hmem q hq)

lemma isEmpty_false_of_ne_nil {α : Type} {l : List α} (h : l ≠ []) : l.isEmpty = false := by
  cases l with
  | nil => exact absurd rfl h
  | cons a t => rfl

/-- One accepted pick by captain 0 that does not end the draft. -/
lemma submitPick_step0 (author : ℤ) (caps : List PlayerRow)
    (pool team1v team2v : List PlayerRow) (pk turn : ℕ) (actor : ℤ) (pids : List ℤ)
    (pool1 team1n : List PlayerRow)
    (hauth : interaction_check ⟨author, caps, pool, team1v, team2v, 0, pk, turn⟩ actor = true)
    (hne : pids ≠ [])
    (hmv : movePlayers pool team1v pids = some (pool1, team1n))
    (hnot : (turn == 4 && pool1.length == 1) = false) :
    submitPick ⟨author, caps, pool, team1v, team2v, 0, pk, turn⟩ actor pids =
      .continued ⟨author, caps, pool1, team1n, team2v, 1,
        (if turn + 1 == 5 then 1 else 2), turn + 1⟩ := by
  unfold submitPick
  rw [hauth]
  unfold on_submit_pick
  rw [isEmpty_false_of_ne_nil hne]
  simp only [Bool.false_eq_true, if_false]
  show (match movePlayers pool team1v pids with
    | none => PickResult.pickFault _
    | some (available1, team_after) => _) = _
  rw [hmv]
  simp [hnot]

/-- One accepted pick by captain 1 that does not end the draft. -/
lemma submitPick_step1 (author : ℤ) (caps : List PlayerRow)
    (pool team1v team2v : List PlayerRow) (pk turn : ℕ) (actor : ℤ) (pids : List ℤ)
    (pool1 team2n : List PlayerRow)
    (hauth : interaction_check ⟨author, caps, pool, team1v, team2v, 1, pk, turn⟩ actor = true)
    (hne : pids ≠ [])
    (hmv : movePlayers pool team2v pids = some (pool1, team2n))
    (hnot : (turn == 4 && pool1.length == 1) = false) :
    submitPick ⟨author, caps, pool, team1v, team2v, 1, pk, turn⟩ actor pids =
      .continued ⟨author, caps, pool1, team1v, team2n, 0,
        (if turn + 1 == 5 then 1 else 2), turn + 1⟩ := by
  unfold submitPick
  rw [hauth]
  unfold on_submit_pick
  rw [isEmpty_false_of_ne_nil hne]
  simp only [Bool.false_eq_true, if_false]
  show (match movePlayers pool team2v pids with
    | none => PickResult.pickFault _
    | some (available1, team_after) => _) = _
  rw [hmv]
  simp [hnot]

/-- The accepted turn-4 pick by captain 1 that leaves one player: the draft
completes, the leftover player joining team 1. -/
lemma submitPick_complete1 (author : ℤ) (caps : List PlayerRow)
    (pool team1v team2v : List PlayerRow) (pk : ℕ) (actor : ℤ) (pids : List ℤ)
    (last : PlayerRow) (team2n : List PlayerRow)
    (hauth : interaction_check ⟨author, caps, pool, team1v, team2v, 1, pk, 4⟩ actor = true)
    (hne : pids ≠ [])
    (hmv : movePlayers pool team2v pids = some ([last], team2n)) :
    submitPick ⟨author, caps, pool, team1v, team2v, 1, pk, 4⟩ actor pids =
      .completed (team1v ++ [last]) team2n := by
  unfold submitPick
  rw [hauth]
  unfold on_submit_pick
  rw [isEmpty_false_of_ne_nil hne]
  simp only [Bool.false_eq_true, if_false]
  show (match movePlayers pool team2v pids with
    | none => PickResult.pickFault _
    | some (available1, team_after) => _) = _
  rw [hmv]
  simp

lemma interaction_check_self (st : DraftState) :
    interaction_check st (currentPicker st).discord_id = true := by
  simp only [interaction_check]
  split
  · rfl
  · simp

lemma ids_nodup_filter {pool : List PlayerRow}
    (h : (pool.map (fun p => p.discord_id)).Nodup) (pred : PlayerRow → Bool) :
    ((pool.filter pred).map (fun p => p.discord_id)).Nodup :=
  ((List.filter_sublist pool).map _).nodup h

lemma mem_ids_filter {pool : List PlayerRow} {a : ℤ} {pids : List ℤ}
    (ha : a ∈ pool.map (fun p => p.discord_id)) (hnot : a ∉ pids) :
    a ∈ (pool.filter (fun p => decide (p.discord_id ∉ pids))).map
      (fun p => p.discord_id) := by
  obtain ⟨q, hq, rfl⟩ := List.mem_map.mp ha
  exact List.mem_map.mpr ⟨q, List.mem_filter.mpr ⟨hq, by simpa using hnot⟩, rfl⟩

/-- Removing all players whose id was picked shortens the pool by exactly
the number of picked ids. -/
lemma length_filter_not_mem {pool : List PlayerRow} {pids : List ℤ}
    (hnd : (pool.map (fun p => p.discord_id)).Nodup)
    (hpnd : pids.Nodup) (hsub : ∀ a ∈ pids, a ∈ pool.map (fun p => p.discord_id)) :
    (pool.filter (fun p => decide (p.discord_id ∉ pids))).length + pids.length =
      pool.length := by
  classical
  have hperm := List.filter_append_perm (fun p => decide (p.discord_id ∈ pids)) pool
  have hlen := hperm.length_eq
  rw [List.length_append] at hlen
  have hin : ((pool.filter (fun p => decide (p.discord_id ∈ pids))).map
      (fun p => p.discord_id)).Perm pids := by
    rw [List.perm_ext_iff_of_nodup (ids_nodup_filter hnd _) hpnd]
    intro a
    constructor
    · intro ha
      obtain ⟨q, hq, rfl⟩ := List.mem_map.mp ha
      exact (by simpa using (List.mem_filter.mp hq).2)
    · intro ha
      obtain ⟨q, hq, rfl⟩ := List.mem_map.mp (hsub a ha)
      exact List.mem_map.mpr ⟨q, List.mem_filter.mpr ⟨hq, by simpa using ha⟩, rfl⟩
  have hlin : (pool.filter (fun p => decide (p.discord_id ∈ pids))).length = pids.length := by
    have := hin.length_eq
    simpa using this
  have hsame : pool.filter (fun p => !(decide (p.discord_id ∈ pids))) =
      pool.filter (fun p => decide (p.discord_id ∉ pids)) := by
    apply List.filter_congr
    intro q _
    simp [decide_not]
  rw [hsame, hlin] at hlen
  omega

lemma interaction_check_pick0 (author : ℤ) (c1 c2 : PlayerRow)
    (pool t1 t2 : List PlayerRow) (pk tn : ℕ) :
    interaction_check ⟨author, [c1, c2], pool, t1, t2, 0, pk, tn⟩ c1.discord_id = true := by
  simpa [currentPicker] using
    interaction_check_self ⟨author, [c1, c2], pool, t1, t2, 0, pk, tn⟩

lemma interaction_check_pick1 (author : ℤ) (c1 c2 : PlayerRow)
    (pool t1 t2 : List PlayerRow) (pk tn : ℕ) :
    interaction_check ⟨author, [c1, c2], pool, t1, t2, 1, pk, tn⟩ c2.discord_id = true := by
  simpa [currentPicker] using
    interaction_check_self ⟨author, [c1, c2], pool, t1, t2, 1, pk, tn⟩

lemma ne_nil_of_length_pos {α : Type} {l : List α} {n : ℕ} (h : l.length = n + 1) :
    l ≠ [] := by
  intro hnil
  rw [hnil] at h
  simp at h

lemma draft_schedule_run
    (author : ℤ) (c1 c2 : PlayerRow) (pool : List PlayerRow)
    (picks1 picks2 picks3 picks4 : List ℤ)
    (hpool : pool.length = 8)
    (hndall : ((c1 :: c2 :: pool).map (fun p => p.discord_id)).Nodup)
    (hl1 : picks1.length = 1) (hl2 : picks2.length = 2)
    (hl3 : picks3.length = 2) (hl4 : picks4.length = 2)
    (hpnd : (picks1 ++ picks2 ++ picks3 ++ picks4).Nodup)
    (hpsub : ∀ a ∈ picks1 ++ picks2 ++ picks3 ++ picks4,
      a ∈ pool.map (fun p => p.discord_id)) :
    draftScenario author c1 c2 pool picks1 picks2 picks3 picks4 := by
  classical
  have hndpool : (pool.map (fun p => p.discord_id)).Nodup := by
    have h := hndall
    simp only [List.map_cons, List.nodup_cons] at h
    exact h.2.2
  have hnd123 : (picks1 ++ picks2 ++ picks3).Nodup :=
    hpnd.sublist (List.sublist_append_left _ _)
  have hnd12 : (picks1 ++ picks2).Nodup :=
    hnd123.sublist (List.sublist_append_left _ _)
  obtain ⟨hnd1, hnd2, hdis12⟩ := List.nodup_append.mp hnd12
  obtain ⟨_, hnd3, hdis123⟩ := List.nodup_append.mp hnd123
  obtain ⟨_, hnd4, hdis1234⟩ := List.nodup_append.mp hpnd
  have hs1 : ∀ a ∈ picks1, a ∈ pool.map (fun p => p.discord_id) :=
    fun a ha => hpsub a (by simp [ha])
  have hs2 : ∀ a ∈ picks2, a ∈ pool.map (fun p => p.discord_id) :=
    fun a ha => hpsub a (by simp [ha])
  have hs3 : ∀ a ∈ picks3, a ∈ pool.map (fun p => p.discord_id) :=
    fun a ha => hpsub a (by simp [ha])
  have hs4 : ∀ a ∈ picks4, a ∈ pool.map (fun p => p.discord_id) :=
    fun a ha => hpsub a (by simp [ha])
  -- step 1
  obtain ⟨picked1, hmv1, hlenp1, hmemp1⟩ := movePlayers_spec picks1 pool [c1] hndpool hnd1 hs1
  have hne1 : picks1 ≠ [] := ne_nil_of_length_pos hl1
  have hstep1 : submitPick (initDraft author c1 c2 pool) c1.discord_id picks1 =
      .continued ⟨author, [c1, c2], pool.filter (fun p => decide (p.discord_id ∉ picks1)),
        [c1] ++ picked1, [c2], 1, 2, 2⟩ := by
    exact submitPick_step0 author [c1, c2] pool [c1] [c2] 1 1 c1.discord_id picks1
      _ _ (interaction_check_pick0 author c1 c2 pool [c1] [c2] 1 1) hne1 hmv1 (by simp)
  -- pool after step 1
  have hndpool1 : ((pool.filter (fun p => decide (p.discord_id ∉ picks1))).map
      (fun p => p.discord_id)).Nodup := ids_nodup_filter hndpool _
  have hs2x : ∀ a ∈ picks2, a ∈ (pool.filter (fun p => decide (p.discord_id ∉ picks1))).map
      (fun p => p.discord_id) :=
    fun a ha => mem_ids_filter (hs2 a ha) (fun hc => hdis12 hc ha)
  -- step 2
  obtain ⟨picked2, hmv2, hlenp2, hmemp2⟩ :=
    movePlayers_spec picks2 (pool.filter (fun p => decide (p.discord_id ∉ picks1))) [c2]
      hndpool1 hnd2 hs2x
  have hne2 : picks2 ≠ [] := ne_nil_of_length_pos hl2
  have hstep2 : submitPick
      (⟨author, [c1, c2], pool.filter (fun p => decide (p.discord_id ∉ picks1)),
        [c1] ++ picked1, [c2], 1, 2, 2⟩ : DraftState) c2.discord_id picks2 =
      .continued ⟨author, [c1, c2],
        (pool.filter (fun p => decide (p.discord_id ∉ picks1))).filter
          (fun p => decide (p.discord_id ∉ picks2)),
        [c1] ++ picked1, [c2] ++ picked2, 0, 2, 3⟩ := by
    exact submitPick_step1 author [c1, c2] _ ([c1] ++ picked1) [c2] 2 2 c2.discord_id picks2
      _ _ (interaction_check_pick1 author c1 c2 _ ([c1] ++ picked1) [c2] 2 2) hne2 hmv2 (by simp)
  -- pool after step 2
  have hndpool2 : (((pool.filter (fun p => decide (p.discord_id ∉ picks1))).filter
      (fun p => decide (p.discord_id ∉ picks2))).map (fun p => p.discord_id)).Nodup :=
    ids_nodup_filter hndpool1 _
  have hs3x : ∀ a ∈ picks3,
      a ∈ ((pool.filter (fun p => decide (p.discord_id ∉ picks1))).filter
        (fun p => decide (p.discord_id ∉ picks2))).map (fun p => p.discord_id) := by
    intro a ha
    have h1 : a ∉ picks1 := fun hc => hdis123 (by simp [hc]) ha
    have h2 : a ∉ picks2 := fun hc => hdis123 (by simp [hc]) ha
    exact mem_ids_filter (mem_ids_filter (hs3 a ha) h1) h2
  -- step 3
  obtain ⟨picked3, hmv3, hlenp3, hmemp3⟩ :=
    movePlayers_spec picks3 _ ([c1] ++ picked1) hndpool2 hnd3 hs3x
  have hne3 : picks3 ≠ [] := ne_nil_of_length_pos hl3
  have hstep3 : submitPick
      (⟨author, [c1, c2],
        (pool.filter (fun p => decide (p.discord_id ∉ picks1))).filter
          (fun p => decide (p.discord_id ∉ picks2)),
        [c1] ++ picked1, [c2] ++ picked2, 0, 2, 3⟩ : DraftState) c1.discord_id picks3 =
      .continued ⟨author, [c1, c2],
        ((pool.filter (fun p => decide (p.discord_id ∉ picks1))).filter
          (fun p => decide (p.discord_id ∉ picks2))).filter
            (fun p => decide (p.discord_id ∉ picks3)),
        ([c1] ++ picked1) ++ picked3, [c2] ++ picked2, 1, 2, 4⟩ := by
    exact submitPick_step0 author [c1, c2] _ ([c1] ++ picked1) ([c2] ++ picked2) 2 3
      c1.discord_id picks3 _ _
      (interaction_check_pick0 author c1 c2 _ ([c1] ++ picked1) ([c2] ++ picked2) 2 3)
      hne3 hmv3 (by simp)
  -- pool sizes
  have hlf1 := length_filter_not_mem hndpool hnd1 hs1
  have hlf2 := length_filter_not_mem hndpool1 hnd2 hs2x
  have hlf3 := length_filter_not_mem hndpool2 hnd3 hs3x
  have hp3len : (((pool.filter (fun p => decide (p.discord_id ∉ picks1))).filter
      (fun p => decide (p.discord_id ∉ picks2))).filter
        (fun p => decide (p.discord_id ∉ picks3))).length = 3 := by
    rw [hl1] at hlf1
    rw [hl2] at hlf2
    rw [hl3] at hlf3
    omega
  -- step 4
  have hndpool3 : ((((pool.filter (fun p => decide (p.discord_id ∉ picks1))).filter
      (fun p => decide (p.discord_id ∉ picks2))).filter
        (fun p => decide (p.discord_id ∉ picks3))).map (fun p => p.discord_id)).Nodup :=
    ids_nodup_filter hndpool2 _
  have hs4x : ∀ a ∈ picks4,
      a ∈ (((pool.filter (fun p => decide (p.discord_id ∉ picks1))).filter
        (fun p => decide (p.discord_id ∉ picks2))).filter
          (fun p => decide (p.discord_id ∉ picks3))).map (fun p => p.discord_id) := by
    intro a ha
    have h1 : a ∉ picks1 := fun hc => hdis1234 (by simp [hc]) ha
    have h2 : a ∉ picks2 := fun hc => hdis1234 (by simp [hc]) ha
    have h3 : a ∉ picks3 := fun hc => hdis1234 (by simp [hc]) ha
    exact mem_ids_filter (mem_ids_filter (mem_ids_filter (hs4 a ha) h1) h2) h3
  obtain ⟨picked4, hmv4, hlenp4, hmemp4⟩ :=
    movePlayers_spec picks4 _ ([c2] ++ picked2) hndpool3 hnd4 hs4x
  have hlf4 := length_filter_not_mem hndpool3 hnd4 hs4x
  have hp4len : ((((pool.filter (fun p => decide (p.discord_id ∉ picks1))).filter
      (fun p => decide (p.discord_id ∉ picks2))).filter
        (fun p => decide (p.discord_id ∉ picks3))).filter
          (fun p => decide (p.discord_id ∉ picks4))).length = 1 := by
    rw [hl4] at hlf4
    omega
  obtain ⟨last, hlast⟩ := List.length_eq_one.mp hp4len
  rw [hlast] at hmv4
  have hne4 : picks4 ≠ [] := ne_nil_of_length_pos hl4
  have hstep4 : submitPick
      (⟨author, [c1, c2],
        ((pool.filter (fun p => decide (p.discord_id ∉ picks1))).filter
          (fun p => decide (p.discord_id ∉ picks2))).filter
            (fun p => decide (p.discord_id ∉ picks3)),
        ([c1] ++ picked1) ++ picked3, [c2] ++ picked2, 1, 2, 4⟩ : DraftState)
        c2.discord_id picks4 =
      .completed ((([c1] ++ picked1) ++ picked3) ++ [last]) (([c2] ++ picked2) ++ picked4) := by
    exact submitPick_complete1 author [c1, c2] _ (([c1] ++ picked1) ++ picked3)
      ([c2] ++ picked2) 2 c2.discord_id picks4 last _
      (interaction_check_pick1 author c1 c2 _ (([c1] ++ picked1) ++ picked3)
        ([c2] ++ picked2) 2 4)
      hne4 hmv4
  -- conclusion
  have hlastpool : last ∈ pool := by
    have h0 : last ∈ (((pool.filter (fun p => decide (p.discord_id ∉ picks1))).filter
        (fun p => decide (p.discord_id ∉ picks2))).filter
          (fun p => decide (p.discord_id ∉ picks3))).filter
            (fun p => decide (p.discord_id ∉ picks4)) := by
      rw [hlast]
      simp
    exact (List.filter_sublist _).subset ((List.filter_sublist _).subset
      ((List.filter_sublist _).subset ((List.filter_sublist _).subset h0)))
  refine ⟨_, _, _, _, _, last, hstep1, hstep2, hstep3, rfl, hp3len, hmv4, hstep4, rfl,
    hlastpool, by simp, ?_, ?_⟩
  · simp only [List.length_append, List.length_cons, List.length_nil, hlenp1, hlenp3, hl1, hl3]
  · simp only [List.length_append, List.length_cons, List.length_nil, hlenp2, hlenp4, hl2, hl4]

-- ============================================================
-- Lemmas for authorization, registry conflicts, reporting, persistence
-- ============================================================

/-- A submission by anyone other than the current captain is rejected with
the state unchanged, except for the author acting for a negative-id dummy
captain. -/
lemma submitPick_rejected (st : DraftState) (actor : ℤ) (picks : List ℤ)
    (hne : actor ≠ (currentPicker st).discord_id)
    (hnb : ¬((currentPicker st).discord_id < 0 ∧ actor = st.author_id)) :
    submitPick st actor picks = .rejectedAuth st := by
  have hchk : interaction_check st actor = false := by
    simp only [interaction_check]
    split
    · rename_i h
      exfalso
      rw [Bool.and_eq_true] at h
      exact hnb ⟨by simpa using h.1, by simpa using h.2⟩
    · simpa using hne
  unfold submitPick
  rw [hchk]
  simp

lemma recommend_teams_conflict (st : BotState) (channel_id : ℤ)
    (members : List (ℤ × String)) (h : dictContains st.active_matches channel_id = true) :
    recommend_teams st channel_id members = (st, .conflictActive) := by
  unfold recommend_teams
  rw [h]
  simp

lemma captains_pick_conflict (sample2 : List PlayerRow → PlayerRow × PlayerRow)
    (st : BotState) (channel_id author_id : ℤ) (members : List (ℤ × String))
    (captain1 captain2 : Option (ℤ × String))
    (h : dictContains st.active_matches channel_id = true) :
    captains_pick sample2 st channel_id author_id members captain1 captain2 =
      (st, .conflictActive) := by
  unfold captains_pick
  rw [h]
  simp

/-- The abandoned branch of report_match: one Abandoned record appended,
the session removed, everything else (players file included) untouched. -/
lemma report_match_abandoned
    (engine : List (ℚ × ℚ) → List (ℚ × ℚ) → ℕ →
      List (ℚ × ℚ) × List (ℚ × ℚ) × List ℚ × List ℚ)
    (st : BotState) (channel_id : ℤ) (now : String) (session : Session)
    (h : dictGet? st.active_matches channel_id = some session) :
    report_match engine st channel_id "abandoned" now =
      ({ st with active_matches := dictPop st.active_matches channel_id,
                 matches_df := st.matches_df ++
                   [{ match_id := session.match_id, winner := "Abandoned",
                      team1_ids := joinIds session.team1,
                      team2_ids := joinIds session.team2, timestamp := now }] },
       .abandonedOk session.match_id) := by
  unfold report_match
  rw [h]
  simp

lemma save_player_data_integral (df : List PlayerRow) :
    allIntegral (save_player_data df) := by
  intro r hr
  unfold save_player_data at hr
  obtain ⟨q, _, rfl⟩ := List.mem_map.mp hr
  exact ⟨Rat.den_intCast _, Rat.den_intCast _⟩

lemma get_or_create_player_integral (file : List PlayerRow) (pid : ℤ) (pname : String)
    (h : allIntegral file) : allIntegral (get_or_create_player file pid pname).2 := by
  unfold get_or_create_player
  rcases hf : file.find? (fun r => r.discord_id == pid) with _ | row
  · simp only [hf]
    exact save_player_data_integral _
  · simp only [hf]
    by_cases hn : row.display_name ≠ pname
    · rw [if_pos hn]
      exact save_player_data_integral _
    · rw [if_neg hn]
      exact h

lemma edit_rating_integral (file : List PlayerRow) (pid : ℤ) (pname : String) (r : ℤ) :
    allIntegral (edit_rating file pid pname r) :=
  save_player_data_integral _

lemma report_match_integral
    (engine : List (ℚ × ℚ) → List (ℚ × ℚ) → ℕ →
      List (ℚ × ℚ) × List (ℚ × ℚ) × List ℚ × List ℚ)
    (st : BotState) (channel_id : ℤ) (winner_value : String) (now : String)
    (h : allIntegral st.players) :
    allIntegral (report_match engine st channel_id winner_value now).1.players := by
  unfold report_match
  rcases hget : dictGet? st.active_matches channel_id with _ | mi
  · simp only [hget]
    exact h
  · simp only [hget]
    by_cases hw : (winner_value == "abandoned") = true
    · rw [if_pos hw]
      exact h
    · rw [if_neg hw]
      exact save_player_data_integral _

lemma mean_pair (a b : ℝ) : mean [a, b] = (a + b) / 2 := by
  unfold mean
  norm_num

-- ============================================================
-- Claim theorems
-- ============================================================

/-- C1: for every input list of 10 distinct rated players, balance_teams
returns two disjoint teams of exactly 5 players whose union equals the
input set, the average-rating gap of the returned split is at most that of
every other possible 5/5 partition of the input, and the split kept is the
first one achieving the minimum in enumeration order, which fixes the
output as a function of the input (determinism). -/
theorem C1_balance_teams_optimal_partition (players : List PlayerRow)
    (h10 : players.length = 10) (hnd : players.Nodup) : balanceSpec players :=
  balance_teams_spec players h10 hnd

/-- Witness for C1 at a concrete roster of ten distinct players. -/
theorem C1_balance_teams_optimal_partition_witness :
    rosterC1.length = 10 ∧ rosterC1.Nodup ∧ balanceSpec rosterC1 :=
  ⟨by decide, by decide,
    C1_balance_teams_optimal_partition rosterC1 (by decide) (by decide)⟩

/-- C5: in a draft that follows the pick schedule (turn 1: captain 0 picks
1 player; turns 2 to 4: the alternating captains pick 2 each), the turn-4
submission leaves exactly one player in the pool, that player is
automatically assigned to the team that did not just pick (captain A's
team, team1), and the draft reaches Complete with both teams at exactly 5
members without any 5th-turn submission. -/
theorem C5_draft_schedule_completes
    (author : ℤ) (c1 c2 : PlayerRow) (pool : List PlayerRow)
    (picks1 picks2 picks3 picks4 : List ℤ)
    (hpool : pool.length = 8)
    (hndall : ((c1 :: c2 :: pool).map (fun p => p.discord_id)).Nodup)
    (hl1 : picks1.length = 1) (hl2 : picks2.length = 2)
    (hl3 : picks3.length = 2) (hl4 : picks4.length = 2)
    (hpnd : (picks1 ++ picks2 ++ picks3 ++ picks4).Nodup)
    (hpsub : ∀ a ∈ picks1 ++ picks2 ++ picks3 ++ picks4,
      a ∈ pool.map (fun p => p.discord_id)) :
    draftScenario author c1 c2 pool picks1 picks2 picks3 picks4 :=
  draft_schedule_run author c1 c2 pool picks1 picks2 picks3 picks4 hpool hndall
    hl1 hl2 hl3 hl4 hpnd hpsub

/-- Witness for C5: a concrete schedule-following draft. -/
theorem C5_draft_schedule_completes_witness :
    poolC5.length = 8 ∧
    ((capAC5 :: capBC5 :: poolC5).map (fun p => p.discord_id)).Nodup ∧
    ([(3:ℤ)].length = 1 ∧ [(4:ℤ), 5].length = 2 ∧
      [(6:ℤ), 7].length = 2 ∧ [(8:ℤ), 9].length = 2) ∧
    ([(3:ℤ)] ++ [4, 5] ++ [6, 7] ++ [8, 9]).Nodup ∧
    (∀ a ∈ [(3:ℤ)] ++ [4, 5] ++ [6, 7] ++ [8, 9],
      a ∈ poolC5.map (fun p => p.discord_id)) ∧
    draftScenario 99 capAC5 capBC5 poolC5 [3] [4, 5] [6, 7] [8, 9] :=
  ⟨by decide, by decide, ⟨by decide, by decide, by decide, by decide⟩, by decide, by decide,
    C5_draft_schedule_completes 99 capAC5 capBC5 poolC5 [3] [4, 5] [6, 7] [8, 9]
      (by decide) (by decide) (by decide) (by decide) (by decide) (by decide)
      (by decide) (by decide)⟩

/-- C6 (amended): in every non-terminal draft state, a pick submission from
an actor whose identity differs from the captain whose turn it is, is
rejected with an authorization error and the draft state is left
unchanged, unless the current captain carries a negative (test-dummy) id
and the actor is the draft author, in which case the code lets the author
act for the dummy captain. -/
theorem C6_nonpicker_rejected (st : DraftState) (actor : ℤ) (picks : List ℤ)
    (hne : actor ≠ (currentPicker st).discord_id)
    (hnb : ¬((currentPicker st).discord_id < 0 ∧ actor = st.author_id)) :
    submitPick st actor picks = .rejectedAuth st :=
  submitPick_rejected st actor picks hne hnb

/-- Witness for C6: a stranger submitting during a real-captain draft. -/
theorem C6_nonpicker_rejected_witness :
    ((999:ℤ) ≠ (currentPicker draftC6).discord_id) ∧
    ¬((currentPicker draftC6).discord_id < 0 ∧ (999:ℤ) = draftC6.author_id) ∧
    submitPick draftC6 999 [3] = .rejectedAuth draftC6 :=
  ⟨by decide, by decide, C6_nonpicker_rejected draftC6 999 [3] (by decide) (by decide)⟩

/-- Counterexample to C6 as stated: the current captain is the test dummy
with id -1, the actor is the draft author (positive id 100, different from
the captain), yet the submission is accepted and the state advances
instead of being rejected with an authorization error. -/
theorem C6_counterexample :
    (0:ℤ) < 100 ∧ ((100:ℤ) ≠ (currentPicker draftC6cex).discord_id) ∧
    submitPick draftC6cex 100 [3] =
      .continued ⟨100, [⟨-1, "T1", 0, 0⟩, ⟨-2, "T2", 0, 0⟩], [⟨4, "p4", 0, 0⟩],
        [⟨-1, "T1", 0, 0⟩, ⟨3, "p3", 0, 0⟩], [⟨-2, "T2", 0, 0⟩], 1, 2, 2⟩ ∧
    ∀ s, submitPick draftC6cex 100 [3] ≠ .rejectedAuth s := by
  refine ⟨by decide, by decide, by decide, ?_⟩
  intro s h
  have hc : submitPick draftC6cex 100 [3] =
      .continued ⟨100, [⟨-1, "T1", 0, 0⟩, ⟨-2, "T2", 0, 0⟩], [⟨4, "p4", 0, 0⟩],
        [⟨-1, "T1", 0, 0⟩, ⟨3, "p3", 0, 0⟩], [⟨-2, "T2", 0, 0⟩], 1, 2, 2⟩ := by decide
  rw [hc] at h
  simp at h

/-- C2 (amended): whenever an arena holds an Active session, a second
recommend_teams or captains_pick request for that arena is rejected with a
conflict error and changes nothing.  (A Pending session does not block:
see the counterexample.) -/
theorem C2_active_session_blocks (st : BotState) (channel_id author_id : ℤ)
    (members : List (ℤ × String)) (captain1 captain2 : Option (ℤ × String))
    (sample2 : List PlayerRow → PlayerRow × PlayerRow)
    (h : dictContains st.active_matches channel_id = true) :
    recommend_teams st channel_id members = (st, .conflictActive) ∧
    captains_pick sample2 st channel_id author_id members captain1 captain2 =
      (st, .conflictActive) :=
  ⟨recommend_teams_conflict st channel_id members h,
   captains_pick_conflict sample2 st channel_id author_id members captain1 captain2 h⟩

/-- Witness for C2 at a concretely occupied arena. -/
theorem C2_active_session_blocks_witness :
    dictContains stC2occupied.active_matches 0 = true ∧
    (recommend_teams stC2occupied 0 membersC2 = (stC2occupied, .conflictActive) ∧
      captains_pick (fun ps => (ps.headD defaultPlayer, ps.headD defaultPlayer))
        stC2occupied 0 99 membersC2 none none = (stC2occupied, .conflictActive)) :=
  ⟨by decide, C2_active_session_blocks stC2occupied 0 99 membersC2 none none
    (fun ps => (ps.headD defaultPlayer, ps.headD defaultPlayer)) (by decide)⟩

/-- Counterexample to C2 as stated: arena 0 holds a Pending session (an
entry in pending_matches), yet a second recommend_teams is not rejected
with a conflict error: it succeeds, leaving a proposed-team result and
overwriting the pending entry for the arena. -/
theorem C2_counterexample :
    dictContains stC2pending.pending_matches 0 = true ∧
    (∃ t1 t2, recommend_teams stC2pending 0 membersC2 =
      ({ players := playersC2, matches_df := [], active_matches := [],
         pending_matches := [(0, (t1, t2))] }, .proposed t1 t2)) ∧
    ∀ st2, recommend_teams stC2pending 0 membersC2 ≠ (st2, .conflictActive) := by
  refine ⟨by decide, ⟨_, _, rfl⟩, ?_⟩
  intro st2 h
  have hval : isConflictR (recommend_teams stC2pending 0 membersC2).2 = false := by decide
  rw [h] at hval
  simp [isConflictR] at hval

/-- C3 (amended): new_team_ratings updates each player of team1 as if a
player carrying the average rating of team1 but the member's own deviation
played one game against an opponent whose rating and deviation equal the
averages of team2, the deltas being applied to the member's own rating and
deviation, and symmetrically for team2 with score 1 - score. -/
theorem C3_team_average_refinement (team1 team2 : List (ℝ × ℝ)) (score : ℝ) :
    new_team_ratings team1 team2 score = team_average_update team1 team2 score := rfl

/-- Counterexample to C3 as stated: with team1 = [(1000,350),(2000,350)]
and team2 = [(1500,350),(1500,350)], the code updates the 1000-rated
player with the equal-ratings delta 162 (the team average 1500 faces the
opposing average 1500), while a personal update of a 1000-rated player
against a 1500/350 opponent gains at least 163. -/
theorem C3_counterexample :
    new_team_ratings ceTeam1 ceTeam2 1 ≠ personal_update ceTeam1 ceTeam2 1 := by
  intro h
  have h1 := congrArg (fun q => (q.1.headD (0, 0)).1) h
  have hm1 : mean (ceTeam1.map Prod.fst) = 1500 := by
    show mean [(1000:ℝ), 2000] = 1500
    rw [mean_pair]
    norm_num
  have hm2 : mean (ceTeam2.map Prod.fst) = 1500 := by
    show mean [(1500:ℝ), 1500] = 1500
    rw [mean_pair]
    norm_num
  have hm3 : mean (ceTeam2.map Prod.snd) = 350 := by
    show mean [(350:ℝ), 350] = 350
    rw [mean_pair]
    norm_num
  simp only [new_team_ratings, personal_update, hm1, hm2, hm3] at h1
  simp only [ceTeam1, ceTeam2, List.map_cons, List.map_nil, List.headD_cons] at h1
  rw [rc_default_win] at h1
  have hge := rc_1000_win_ge
  linarith

/-- C4 (amended): at equal ratings and deviations, for an integer-valued
rating r and any deviation d at least 0, a win never lowers the rating
delta below 0 and a loss never raises it above 0 (strictness fails at
small deviations, for example d = 0), and at the defaults the two deltas
are exactly 162 and -162, of equal magnitude. -/
theorem C4_win_loss_signs (r : ℤ) (d : ℝ) (_hd : 0 ≤ d) :
    0 ≤ (rating_change r d r d 1).1 ∧ (rating_change r d r d 0).1 ≤ 0 ∧
    (rating_change 1500 350 1500 350 1).1 = 162 ∧
    (rating_change 1500 350 1500 350 0).1 = -162 :=
  ⟨rc_win_nonneg r d, rc_loss_nonpos r d, rc_default_win, rc_default_loss⟩

/-- Witness for C4 at the default rating and deviation. -/
theorem C4_win_loss_signs_witness :
    (0:ℝ) ≤ 350 ∧
    (0 ≤ (rating_change ((1500:ℤ):ℝ) 350 ((1500:ℤ):ℝ) 350 1).1 ∧
      (rating_change ((1500:ℤ):ℝ) 350 ((1500:ℤ):ℝ) 350 0).1 ≤ 0 ∧
      (rating_change 1500 350 1500 350 1).1 = 162 ∧
      (rating_change 1500 350 1500 350 0).1 = -162) :=
  ⟨by norm_num, C4_win_loss_signs 1500 350 (by norm_num)⟩

/-- Counterexample to C4 as stated: at rating 1500 and deviation 0 the win
delta is not strictly positive and the loss delta is not strictly negative
(both round to 0). -/
theorem C4_counterexample :
    (0:ℝ) ≤ 0 ∧ ¬(0 < (rating_change 1500 0 1500 0 1).1) ∧
    ¬((rating_change 1500 0 1500 0 0).1 < 0) := by
  refine ⟨le_refl 0, ?_, ?_⟩
  · rw [rc_zero_win]
    simp
  · rw [rc_zero_loss]
    simp

/-- C8: every deviation produced by rating_change and new_team_ratings
(the old deviation plus the returned deviation delta) is nonnegative, for
all real inputs: the written-back deviation is the round of a positive
quantity. -/
theorem C8_deviation_nonneg :
    (∀ r1 d1 r2 d2 sc : ℝ, 0 ≤ d1 + (rating_change r1 d1 r2 d2 sc).2) ∧
    ∀ (team1 team2 : List (ℝ × ℝ)) (score : ℝ),
      (∀ p ∈ (new_team_ratings team1 team2 score).1, 0 ≤ p.2) ∧
      (∀ p ∈ (new_team_ratings team1 team2 score).2.1, 0 ≤ p.2) := by
  refine ⟨rating_change_dev_nonneg, ?_⟩
  intro team1 team2 score
  constructor
  · intro p hp
    simp only [new_team_ratings, List.mem_map] at hp
    obtain ⟨q, _, rfl⟩ := hp
    exact rating_change_dev_nonneg _ _ _ _ _
  · intro p hp
    simp only [new_team_ratings, List.mem_map] at hp
    obtain ⟨q, _, rfl⟩ := hp
    exact rating_change_dev_nonneg _ _ _ _ _

lemma dictContains_dictPop {β : Type} (d : List (ℤ × β)) (k : ℤ) :
    dictContains (dictPop d k) k = false := by
  unfold dictContains dictPop
  rw [List.any_eq_false]
  intro e he
  have := (List.mem_filter.mp he).2
  simp only [bne_iff_ne, ne_eq] at this
  simpa using this

/-- C9: reporting an Active match as Abandoned appends exactly one match
record with winner Abandoned carrying both teams comma-joined id lists,
leaves the players file (every rating and deviation) unchanged, leaves
pending entries unchanged, and removes the session from the registry;
the rating engine is never consulted. -/
theorem C9_abandoned_report
    (engine : List (ℚ × ℚ) → List (ℚ × ℚ) → ℕ →
      List (ℚ × ℚ) × List (ℚ × ℚ) × List ℚ × List ℚ)
    (st : BotState) (channel_id : ℤ) (now : String) (session : Session)
    (h : dictGet? st.active_matches channel_id = some session) :
    report_match engine st channel_id "abandoned" now =
      ({ st with active_matches := dictPop st.active_matches channel_id,
                 matches_df := st.matches_df ++
                   [{ match_id := session.match_id, winner := "Abandoned",
                      team1_ids := joinIds session.team1,
                      team2_ids := joinIds session.team2, timestamp := now }] },
       .abandonedOk session.match_id) ∧
    (report_match engine st channel_id "abandoned" now).1.players = st.players ∧
    (report_match engine st channel_id "abandoned" now).1.pending_matches =
      st.pending_matches ∧
    dictContains (report_match engine st channel_id "abandoned" now).1.active_matches
      channel_id = false := by
  have hmain := report_match_abandoned engine st channel_id now session h
  refine ⟨hmain, ?_, ?_, ?_⟩
  · rw [hmain]
  · rw [hmain]
  · rw [hmain]
    exact dictContains_dictPop st.active_matches channel_id

/-- Witness for C9 at a concrete active session. -/
theorem C9_abandoned_report_witness :
    dictGet? stC9.active_matches 3 = some sessionC9 ∧
    (report_match engineC9 stC9 3 "abandoned" "2024-05-01T10:00:00" =
      ({ stC9 with active_matches := dictPop stC9.active_matches 3,
                   matches_df := stC9.matches_df ++
                     [{ match_id := sessionC9.match_id, winner := "Abandoned",
                        team1_ids := joinIds sessionC9.team1,
                        team2_ids := joinIds sessionC9.team2,
                        timestamp := "2024-05-01T10:00:00" }] },
       .abandonedOk sessionC9.match_id) ∧
      (report_match engineC9 stC9 3 "abandoned" "2024-05-01T10:00:00").1.players =
        stC9.players ∧
      (report_match engineC9 stC9 3 "abandoned" "2024-05-01T10:00:00").1.pending_matches =
        stC9.pending_matches ∧
      dictContains (report_match engineC9 stC9 3 "abandoned"
        "2024-05-01T10:00:00").1.active_matches 3 = false) :=
  ⟨by decide, C9_abandoned_report engineC9 stC9 3 "2024-05-01T10:00:00" sessionC9 (by decide)⟩

/-- C10: every rating and deviation persisted to the players file is
rounded to an integer on write: save_player_data always produces an
all-integer file, and each mutating operation (player creation or name
refresh, the admin rating edit, and match reporting with any rating
engine) leaves the stored file all-integer whenever it was before. -/
theorem C10_store_integrality :
    (∀ df, allIntegral (save_player_data df)) ∧
    (∀ file pid pname, allIntegral file →
      allIntegral (get_or_create_player file pid pname).2) ∧
    (∀ file pid pname r, allIntegral (edit_rating file pid pname r)) ∧
    (∀ (engine : List (ℚ × ℚ) → List (ℚ × ℚ) → ℕ →
        List (ℚ × ℚ) × List (ℚ × ℚ) × List ℚ × List ℚ)
      (st : BotState) (channel_id : ℤ) (winner_value now : String),
      allIntegral st.players →
      allIntegral (report_match engine st channel_id winner_value now).1.players) :=
  ⟨save_player_data_integral, get_or_create_player_integral,
   edit_rating_integral, report_match_integral⟩

/-- Witness for C10: a concrete integral store stays integral through
player creation and a reported match. -/
theorem C10_store_integrality_witness :
    allIntegral playersC2 ∧
    allIntegral (get_or_create_player playersC2 42 "newbie").2 ∧
    allIntegral stC9.players ∧
    allIntegral (report_match engineC9 stC9 3 "blue" "t").1.players :=
  ⟨by decide, C10_store_integrality.2.1 playersC2 42 "newbie" (by decide),
   by decide, C10_store_integrality.2.2.2 engineC9 stC9 3 "blue" "t" (by decide)⟩

/-- C7 evaluated at the failing input: player 5 belongs to neither team of
the stored match (the ids are 15, 22, 33, 44, 56 and 71 to 76), yet the
match-history query for player 5 returns the record, because the digit
string 5 is a substring of the comma-joined id column (pandas
str.contains). -/
theorem C7_substring_false_positive :
    (∀ p ∈ teamBlueC7, p.discord_id ≠ 5) ∧
    (∀ p ∈ teamRedC7, p.discord_id ≠ 5) ∧
    match_history [recC7] 5 = [recC7] := by
  refine ⟨by decide, by decide, by decide⟩
